import Mathlib

/-!
Verification of the tachybridge-wasm client core against its specification.

The definitions below are shallow embeddings of the TypeScript sources:

* the self-contained CBOR codec (`encodeValue` / `Reader.decode` /
  `decodeCbor` of the codec source file);
* the reconnect-delay computation `computeReconnectDelayMs`;
* the `BridgeClientCore` state machine of `client-core.ts`: its correlation
  tables, the reconnect scheduler, the incoming-message dispatch and the
  state replay on reconnect.

Conventions used throughout:

* JS `Map`s are association lists in insertion order; `mapSet` updates an
  existing key in place and appends a new one, as a JS `Map` does.
* JS numbers are embedded as follows: numbers that are safe integers become
  `Int`; every other number is carried as its IEEE-754 binary64 bit pattern
  (a `Nat` below `2 ^ 64`), since the codec only ever reads and writes such
  numbers through a big-endian `DataView`.
* JS strings are carried as their UTF-8 byte sequences (the codec passes
  them through `TextEncoder` / `TextDecoder` unchanged).
* Promise settlement and observer notifications are modelled as a list of
  emitted `Emit` events; a promise that resolves or rejects shows up as a
  `settle…` event carrying the promise's key and the error message.
-/

namespace Tachybridge

/-! ### JS Map as an insertion-ordered association list -/

/-- `Map.get`: first entry with the given key. -/
def mapGet {α : Type} (m : List (String × α)) (k : String) : Option α :=
  match m.find? (fun e => e.1 == k) with
  | some e => some e.2
  | none => none

/-- `Map.set`: update an existing key in place, append a new key. -/
def mapSet {α : Type} (m : List (String × α)) (k : String) (v : α) : List (String × α) :=
  match m with
  | [] => [(k, v)]
  | (k0, v0) :: rest => if k0 == k then (k0, v) :: rest else (k0, v0) :: mapSet rest k v

/-- `Map.delete`: remove the entry with the given key. -/
def mapDelete {α : Type} (m : List (String × α)) (k : String) : List (String × α) :=
  m.filter (fun e => !(e.1 == k))

/-! ### CBOR codec (the self-contained encoder/decoder source file)

`CborValue` is the domain of JS values the codec handles, under the number
and string conventions stated at the top of the file. -/

/-- A JS value in the domain of the self-contained CBOR codec.  `int` holds
numbers that are safe integers; `float` holds any other number as its
binary64 bit pattern; `str` holds a string as its UTF-8 bytes; `obj` holds a
plain object as its (insertion-ordered) string-keyed entries. -/
inductive CborValue where
  | bool (b : Bool)
  | nul
  | int (n : Int)
  | float (bits : Nat)
  | str (utf8 : List Nat)
  | bytes (bs : List Nat)
  | arr (items : List CborValue)
  | obj (entries : List (List Nat × CborValue))

/-- Big-endian bytes of `n`, `w` bytes wide (most significant byte first). -/
def beBytes : Nat → Nat → List Nat
  | 0, _ => []
  | w + 1, n => n / 256 ^ w :: beBytes w (n % 256 ^ w)

/-- `encodeTypeAndLength`: initial byte plus length bytes for a major type.
The source throws "CBOR length too large" above `2 ^ 64 - 1`; that branch is
unreachable for the values considered here and is rendered as `[]`. -/
def encodeTypeAndLength (majorType length : Nat) : List Nat :=
  let major := majorType * 32
  if length ≤ 23 then [major + length]
  else if length ≤ 0xff then (major + 24) :: beBytes 1 length
  else if length ≤ 0xffff then (major + 25) :: beBytes 2 length
  else if length ≤ 0xffffffff then (major + 26) :: beBytes 4 length
  else if length ≤ 0xffffffffffffffff then (major + 27) :: beBytes 8 length
  else []

mutual

/-- `encodeValue` of the codec source.  The source's
`Number.isInteger && Number.isSafeInteger` test is pre-applied by the value
embedding: safe integers are `int`, all other numbers are `float` (written
as major 7 / 27 with their eight pattern bytes).  Entries with `undefined`
values, which the source drops, have no counterpart in the embedding. -/
def encodeValue : CborValue → List Nat
  | .nul => [7 * 32 + 22]
  | .bool b => [7 * 32 + (if b then 21 else 20)]
  | .int n =>
      if 0 ≤ n then encodeTypeAndLength 0 n.toNat
      else encodeTypeAndLength 1 (-1 - n).toNat
  | .float bits => (7 * 32 + 27) :: beBytes 8 bits
  | .str s => encodeTypeAndLength 3 s.length ++ s
  | .bytes bs => encodeTypeAndLength 2 bs.length ++ bs
  | .arr items => encodeTypeAndLength 4 items.length ++ encodeList items
  | .obj entries => encodeTypeAndLength 5 entries.length ++ encodeObj entries

/-- The encoder's loop over an array's items. -/
def encodeList : List CborValue → List Nat
  | [] => []
  | x :: xs => encodeValue x ++ encodeList xs

/-- The encoder's loop over an object's entries: key then value. -/
def encodeObj : List (List Nat × CborValue) → List Nat
  | [] => []
  | (k, v) :: rest => encodeValue (.str k) ++ encodeValue v ++ encodeObj rest

end

/-- Read `w` big-endian bytes (the `DataView.getUint…` calls; an
out-of-range read throws, modelled with the reader's end-of-payload error). -/
def readBE : Nat → List Nat → Except String (Nat × List Nat)
  | 0, bs => .ok (0, bs)
  | _ + 1, [] => .error "Unexpected end of CBOR payload"
  | w + 1, b :: bs =>
    match readBE w bs with
    | .error e => .error e
    | .ok (v, tail) => .ok (b * 256 ^ w + v, tail)

/-- `Reader.readLength`.  Additional info 27 rejects values above
`Number.MAX_SAFE_INTEGER = 2 ^ 53 - 1`; info 28 and above is unsupported. -/
def readLength (additionalInfo : Nat) (bs : List Nat) : Except String (Nat × List Nat) :=
  if additionalInfo < 24 then .ok (additionalInfo, bs)
  else if additionalInfo = 24 then
    match bs with
    | [] => .error "Unexpected end of CBOR payload"
    | b :: tail => .ok (b, tail)
  else if additionalInfo = 25 then readBE 2 bs
  else if additionalInfo = 26 then readBE 4 bs
  else if additionalInfo = 27 then
    match readBE 8 bs with
    | .error e => .error e
    | .ok (v, tail) =>
      if 2 ^ 53 - 1 < v then .error "CBOR integer exceeds JS safe integer range"
      else .ok (v, tail)
  else .error "Unsupported CBOR additional info"

/-- `Reader.readBytes`: take `length` bytes or fail at end of payload. -/
def readChunk (length : Nat) (bs : List Nat) : Except String (List Nat × List Nat) :=
  if length ≤ bs.length then .ok (bs.take length, bs.drop length)
  else .error "Unexpected end of CBOR payload"

/-- The binary64 pattern of the number `readFloat16` returns for a binary16
pattern.  NaN inputs collapse to the canonical NaN, exactly as the source
returns `Number.NaN`. -/
def half2double (r : Nat) : Nat :=
  let s := r / 2 ^ 15 % 2
  let e := r / 2 ^ 10 % 32
  let f := r % 2 ^ 10
  if e = 31 then
    if f = 0 then s * 2 ^ 63 + 2047 * 2 ^ 52 else 0x7ff8 * 2 ^ 48
  else if e = 0 then
    if f = 0 then s * 2 ^ 63
    else
      let k := Nat.log2 f + 1
      s * 2 ^ 63 + (k + 998) * 2 ^ 52 + (f - 2 ^ (k - 1)) * 2 ^ (53 - k)
  else s * 2 ^ 63 + (e + 1008) * 2 ^ 52 + f * 2 ^ 42

/-- The binary64 pattern of the number `getFloat32` returns for a binary32
pattern; NaNs collapse to the canonical NaN. -/
def single2double (r : Nat) : Nat :=
  let s := r / 2 ^ 31 % 2
  let e := r / 2 ^ 23 % 256
  let f := r % 2 ^ 23
  if e = 255 then
    if f = 0 then s * 2 ^ 63 + 2047 * 2 ^ 52 else 0x7ff8 * 2 ^ 48
  else if e = 0 then
    if f = 0 then s * 2 ^ 63
    else
      let k := Nat.log2 f + 1
      s * 2 ^ 63 + (k + 873) * 2 ^ 52 + (f - 2 ^ (k - 1)) * 2 ^ (53 - k)
  else s * 2 ^ 63 + (e + 896) * 2 ^ 52 + f * 2 ^ 29

/-- Does a binary64 pattern denote a safe integer, and which one?  This is
the value embedding's classifier: a decoded number that is a safe integer is
represented as `int`, any other as `float` (see the conventions above). -/
def f64ToSafeInt (r : Nat) : Option Int :=
  let s := r / 2 ^ 63 % 2
  let e := r / 2 ^ 52 % 2048
  let f := r % 2 ^ 52
  if e = 0 then if f = 0 then some 0 else none
  else if e = 2047 then none
  else if e < 1075 then
    if (2 ^ 52 + f) % 2 ^ (1075 - e) = 0 then
      let m := ((2 ^ 52 + f) / 2 ^ (1075 - e) : Nat)
      some (if s = 1 then -(m : Int) else (m : Int))
    else none
  else if e = 1075 then
    some (if s = 1 then -((2 ^ 52 + f : Nat) : Int) else ((2 ^ 52 + f : Nat) : Int))
  else none

/-- Embed the JS number with binary64 pattern `r` into `CborValue`. -/
def numFromBits (r : Nat) : CborValue :=
  match f64ToSafeInt r with
  | some n => .int n
  | none => .float r

/-- JS `String(key)` on a decoded map key, as UTF-8 bytes.  The encoder only
produces string keys, so only the `str` case is ever exercised by the
round-trip; the remaining cases of the source's coercion are rendered with
Lean's printers for the shapes that have an exact JS counterpart. -/
def keyBytes : CborValue → List Nat
  | .str s => s
  | .bool true => [116, 114, 117, 101]
  | .bool false => [102, 97, 108, 115, 101]
  | .nul => [110, 117, 108, 108]
  | .int n => (toString n).data.map Char.toNat
  | _ => []

/-- JS property assignment while building the decoded object: an existing
key keeps its position and takes the new value, a new key is appended. -/
def objInsert (entries : List (List Nat × CborValue)) (k : List Nat) (v : CborValue) :
    List (List Nat × CborValue) :=
  match entries with
  | [] => [(k, v)]
  | (k0, v0) :: rest => if k0 = k then (k0, v) :: rest else (k0, v0) :: objInsert rest k v

mutual

/-- `Reader.decode`, with a fuel argument standing for the recursion depth
(the source recurses on physically shrinking input; fuel exhaustion cannot be
reached from `decodeCbor` below). -/
def decodeV : Nat → List Nat → Except String (CborValue × List Nat)
  | 0, _ => .error "Unexpected end of CBOR payload"
  | fuel + 1, bs =>
    match bs with
    | [] => .error "Unexpected end of CBOR payload"
    | initial :: rest =>
      let majorType := initial / 32
      let additional := initial % 32
      if majorType = 0 then
        match readLength additional rest with
        | .error e => .error e
        | .ok (n, tail) => .ok (.int (n : Int), tail)
      else if majorType = 1 then
        match readLength additional rest with
        | .error e => .error e
        | .ok (n, tail) => .ok (.int (-1 - (n : Int)), tail)
      else if majorType = 2 then
        match readLength additional rest with
        | .error e => .error e
        | .ok (len, tail) =>
          match readChunk len tail with
          | .error e => .error e
          | .ok (chunk, tail2) => .ok (.bytes chunk, tail2)
      else if majorType = 3 then
        match readLength additional rest with
        | .error e => .error e
        | .ok (len, tail) =>
          match readChunk len tail with
          | .error e => .error e
          | .ok (chunk, tail2) => .ok (.str chunk, tail2)
      else if majorType = 4 then
        match readLength additional rest with
        | .error e => .error e
        | .ok (len, tail) =>
          match decodeArr fuel len tail with
          | .error e => .error e
          | .ok (items, tail2) => .ok (.arr items, tail2)
      else if majorType = 5 then
        match readLength additional rest with
        | .error e => .error e
        | .ok (len, tail) =>
          match decodeMap fuel len [] tail with
          | .error e => .error e
          | .ok (entries, tail2) => .ok (.obj entries, tail2)
      else if majorType = 6 then
        match readLength additional rest with
        | .error e => .error e
        | .ok (_, tail) => decodeV fuel tail
      else
        if additional = 20 then .ok (.bool false, rest)
        else if additional = 21 then .ok (.bool true, rest)
        else if additional = 22 ∨ additional = 23 then .ok (.nul, rest)
        else if additional = 25 then
          match readBE 2 rest with
          | .error e => .error e
          | .ok (r, tail) => .ok (numFromBits (half2double r), tail)
        else if additional = 26 then
          match readBE 4 rest with
          | .error e => .error e
          | .ok (r, tail) => .ok (numFromBits (single2double r), tail)
        else if additional = 27 then
          match readBE 8 rest with
          | .error e => .error e
          | .ok (r, tail) => .ok (numFromBits r, tail)
        else .error "Unsupported CBOR simple value"
termination_by fuel bs => (fuel, 0)

/-- The decoder's loop over an array's `length` items. -/
def decodeArr : Nat → Nat → List Nat → Except String (List CborValue × List Nat)
  | _, 0, bs => .ok ([], bs)
  | fuel, n + 1, bs =>
    match decodeV fuel bs with
    | .error e => .error e
    | .ok (v, bs1) =>
      match decodeArr fuel n bs1 with
      | .error e => .error e
      | .ok (vs, bs2) => .ok (v :: vs, bs2)
termination_by fuel n bs => (fuel, n + 1)

/-- The decoder's loop over a map's `length` key/value pairs, assigning each
pair into the object under construction. -/
def decodeMap : Nat → Nat → List (List Nat × CborValue) → List Nat →
    Except String (List (List Nat × CborValue) × List Nat)
  | _, 0, acc, bs => .ok (acc, bs)
  | fuel, n + 1, acc, bs =>
    match decodeV fuel bs with
    | .error e => .error e
    | .ok (k, bs1) =>
      match decodeV fuel bs1 with
      | .error e => .error e
      | .ok (v, bs2) => decodeMap fuel n (objInsert acc (keyBytes k) v) bs2
termination_by fuel n acc bs => (fuel, n + 1)

end

/-- `encodeCbor` of the codec source. -/
def encodeCbor (value : CborValue) : List Nat :=
  encodeValue value

/-- `decodeCbor` of the codec source: decode one item, then insist on no
trailing bytes.  The fuel bound `length + 1` dominates the recursion depth,
which the source bounds by physically consuming input. -/
def decodeCbor (input : List Nat) : Except String CborValue :=
  match decodeV (input.length + 1) input with
  | .error e => .error e
  | .ok (decoded, remaining) =>
    if remaining.isEmpty then .ok decoded
    else .error "Trailing CBOR bytes detected"

/-- Pairwise distinctness of the key list of an object. -/
def keysDistinct : List (List Nat) → Bool
  | [] => true
  | k :: rest => !(rest.contains k) && keysDistinct rest

mutual

/-- The claim's value domain, as a Boolean check: integers are safe
(`|n| ≤ 2 ^ 53 - 1`), a `float` pattern is a genuine binary64 pattern of a
number that is not a safe integer, byte and string payloads are real byte
sequences of JS-representable length, and object keys are distinct (a plain
JS object cannot repeat a key). -/
def wfb : CborValue → Bool
  | .bool _ => true
  | .nul => true
  | .int n => decide (-(2 ^ 53 - 1) ≤ n) && decide (n ≤ 2 ^ 53 - 1)
  | .float bits => (f64ToSafeInt bits).isNone && decide (bits < 2 ^ 64)
  | .str s => decide (s.length ≤ 2 ^ 53 - 1) && s.all (fun b => b < 256)
  | .bytes bs => decide (bs.length ≤ 2 ^ 53 - 1) && bs.all (fun b => b < 256)
  | .arr items => decide (items.length ≤ 2 ^ 53 - 1) && wfbList items
  | .obj entries =>
      decide (entries.length ≤ 2 ^ 53 - 1) &&
      keysDistinct (entries.map Prod.fst) && wfbObj entries

/-- `wfb` on every item of an array. -/
def wfbList : List CborValue → Bool
  | [] => true
  | x :: xs => wfb x && wfbList xs

/-- `wfb` on every entry of an object: key wellformedness and value. -/
def wfbObj : List (List Nat × CborValue) → Bool
  | [] => true
  | (k, v) :: rest =>
      decide (k.length ≤ 2 ^ 53 - 1) && k.all (fun b => b < 256) &&
      wfb v && wfbObj rest

end

mutual

/-- Node count of a value; bounds the decoder's recursion depth. -/
def csize : CborValue → Nat
  | .arr items => 1 + csizeList items
  | .obj entries => 1 + csizeObj entries
  | _ => 1

/-- Sum of the node counts of a list of values. -/
def csizeList : List CborValue → Nat
  | [] => 0
  | x :: xs => csize x + csizeList xs

/-- Sum of the node counts of an object's entries, keys counted as one. -/
def csizeObj : List (List Nat × CborValue) → Nat
  | [] => 0
  | (_, v) :: rest => 1 + csize v + csizeObj rest

end

/-! ### Reconnect scheduler configuration and delay (client-core.ts)

Numbers in the reconnect configuration are JS float64 values; they are
embedded as rationals, on which the arithmetic of `computeReconnectDelayMs`
(comparisons, `min`/`max`, multiplication, `Math.pow` with a natural
exponent, `Math.floor`) is exact for every value the claims touch. -/

/-- The `BridgeReconnectReason` union. -/
inductive Reason where
  | socket_close
  | socket_error
  | connect_error
  | open_socket_throw
  | manual_close
  deriving Repr, DecidableEq

/-- The resolved `reconnect` options of `BridgeClientOptions`. -/
structure ReconnectOptions where
  enabled : Bool
  initialDelayMs : ℚ
  maxDelayMs : ℚ
  multiplier : ℚ
  jitterRatio : ℚ
  deriving Repr, DecidableEq

/-- `computeReconnectDelayMs`.  `rand` stands for the `Math.random()` draw
(a value in `[0, 1)`); `attempt` is the 1-based attempt number, and the
`Nat` subtraction `attempt - 1` is the source's `Math.max(0, attempt - 1)`. -/
def computeReconnectDelayMs (o : ReconnectOptions) (rand : ℚ) (attempt : Nat) : ℚ :=
  let boundedInitial := max 0 o.initialDelayMs
  let boundedMax := max boundedInitial o.maxDelayMs
  let multiplier := if 0 < o.multiplier then o.multiplier else 1
  let baseDelay := min (boundedInitial * multiplier ^ (attempt - 1)) boundedMax
  let jr := min (max o.jitterRatio 0) 1
  if jr = 0 then max 0 ((Int.floor baseDelay : ℤ) : ℚ)
  else
    let spread := (rand * 2 - 1) * jr
    let jittered := baseDelay * (1 + spread)
    max 0 (min boundedMax ((Int.floor jittered : ℤ) : ℚ))

/-! ### Client core state (client-core.ts)

The correlation tables are JS `Map`s (association lists here); timers
created by `setTimeout` carry identities drawn from a counter, so that
"the armed timeout was cleared" is expressible: `armedTimers` holds the
identities of live reconnect timers and `liveTimeouts` those of live
per-request timeout timers. -/

/-- A `PendingCall` table entry (resolver/rejecter are the promise keyed by
the call id; settlement shows up as a `settleCall` event). -/
structure PendingCall where
  service : String
  timeout : Option Nat
  deriving Repr, DecidableEq

/-- A `PendingAction` table entry; the three hook fields record whether the
optional callbacks were supplied. -/
structure PendingAction where
  id : String
  sessionId : Option String
  action : String
  actionType : String
  timeout : Option Nat
  onRequest : Bool
  onFeedback : Bool
  onResult : Bool
  deriving Repr, DecidableEq

/-- A `PendingActionCancel` table entry.  `action` is the `options.action`
value captured by the timeout closure (used only in the timeout message). -/
structure PendingCancel where
  key : String
  action : String
  timeout : Option Nat
  deriving Repr, DecidableEq

/-- A `SubscriptionInfo` table entry; callbacks are identified by numbers
(a JS `Set` keyed by function identity, in insertion order). -/
structure SubscriptionInfo where
  type : String
  compression : Option String
  callbacks : List Nat
  deriving Repr, DecidableEq

/-- The mutable state of `BridgeClientCore`.  `wsConn` is "`this.ws` is
defined", `wsOpenState` is "`this.ws.readyState == OPEN`". -/
structure ClientState where
  manualClose : Bool
  wsUrl : Option String
  wsConn : Bool
  wsOpenState : Bool
  reconnectAttempt : Nat
  reconnectTimer : Option Nat
  armedTimers : List Nat
  nextTimerId : Nat
  liveTimeouts : List Nat
  pendingCalls : List (String × PendingCall)
  pendingActions : List (String × PendingAction)
  actionIdBySession : List (String × String)
  pendingActionCancels : List (String × PendingCancel)
  subscriptions : List (String × SubscriptionInfo)
  advertisedTopics : List (String × String)
  deriving Repr

/-- The per-client options the embedded operations consult. -/
structure ClientConfig where
  timeoutMs : Option ℚ
  reconnect : ReconnectOptions
  shouldRetry : Option (Reason → Nat → Bool)

/-- Protocol envelopes put on the wire by the operations modelled here. -/
inductive Env where
  | subscribe (topic typ : String) (compression : Option String)
  | unsubscribe (topic : String)
  | advertise (topic typ : String)
  | publish (topic : String)
  | callService (service typ id : String)
  | sendActionGoal (action actionType id : String) (sessionId : Option String)
  | cancelActionGoal (action actionType : String) (sessionId : Option String)
  deriving Repr, DecidableEq

/-- Observable effects of a step: promise settlements (`settle…`), observer
notifications, hook invocations and deliveries to the transport. -/
inductive Emit where
  | settleCall (id : String) (ok : Bool) (msg : String)
  | settleAction (id : String) (ok : Bool) (msg : String)
  | settleCancel (key : String) (ok : Bool) (msg : String)
  | reconnectScheduled (attempt : Nat) (nextDelayMs : ℚ) (reason : Reason)
  | socketOpenEv (url : String)
  | socketCloseEv
  | socketErrorEv (msg : String)
  | actionRequestEv (id : String)
  | actionFeedbackEv (id : String)
  | actionResultEv (id : String)
  | publishEv (topic : String) (cb : Nat)
  | sendEv (env : Env)
  deriving Repr, DecidableEq

/-- `clearTimeout` on a possibly-armed timeout handle. -/
def clearTimeoutId (live : List Nat) (t : Option Nat) : List Nat :=
  match t with
  | none => live
  | some tid => live.filter (fun x => x != tid)

/-- `rejectPendingActionsOnDisconnect`: reject every pending action and
cancel with the disconnect messages, clear their timeouts and their three
tables.  Pending service calls are untouched. -/
def rejectPendingActionsOnDisconnect (s : ClientState) : ClientState × List Emit :=
  let actionEvs := s.pendingActions.map (fun e =>
    Emit.settleAction e.2.id false
      ("Action " ++ e.2.id ++ " interrupted by disconnect; resend after reconnect"))
  let cancelEvs := s.pendingActionCancels.map (fun e =>
    Emit.settleCancel e.2.key false
      "Action cancel interrupted by disconnect; retry after reconnect")
  let live1 := s.pendingActions.foldl (fun l e => clearTimeoutId l e.2.timeout) s.liveTimeouts
  let live2 := s.pendingActionCancels.foldl (fun l e => clearTimeoutId l e.2.timeout) live1
  ({ s with pendingActions := [], actionIdBySession := [], pendingActionCancels := [],
            liveTimeouts := live2 },
   actionEvs ++ cancelEvs)

/-- `clearReconnectTimer`. -/
def clearReconnectTimer (s : ClientState) : ClientState :=
  match s.reconnectTimer with
  | none => s
  | some t =>
    { s with reconnectTimer := none, armedTimers := s.armedTimers.filter (fun x => x != t) }

/-- `resetReconnectState`. -/
def resetReconnectState (s : ClientState) : ClientState :=
  let s1 := clearReconnectTimer s
  { s1 with reconnectAttempt := 0 }

/-- `scheduleReconnect`:  reject pending actions and cancels, then arm one
timer unless manual close, disabled reconnect, no URL, a `shouldRetry` veto,
or an already-armed timer stops it.  `rand` is the jitter draw of
`computeReconnectDelayMs`. -/
def scheduleReconnect (cfg : ClientConfig) (rand : ℚ) (reason : Reason) (s : ClientState) :
    ClientState × List Emit :=
  let (s1, evs) := rejectPendingActionsOnDisconnect s
  if s1.manualClose || !cfg.reconnect.enabled || s1.wsUrl.isNone then (s1, evs)
  else
    let nextAttempt := s1.reconnectAttempt + 1
    if (match cfg.shouldRetry with
        | some p => !p reason nextAttempt
        | none => false) then (s1, evs)
    else if s1.reconnectTimer.isSome then (s1, evs)
    else
      let delay := computeReconnectDelayMs cfg.reconnect rand nextAttempt
      let tid := s1.nextTimerId
      ({ s1 with reconnectAttempt := nextAttempt,
                 reconnectTimer := some tid,
                 armedTimers := s1.armedTimers ++ [tid],
                 nextTimerId := tid + 1 },
       evs ++ [Emit.reconnectScheduled nextAttempt delay reason])

/-- `close()`: set manual close, cancel the reconnect timer, drop the
in-flight connect, close and forget the transport, reset reconnect state. -/
def closeStep (s : ClientState) : ClientState × List Emit :=
  let s1 := { s with manualClose := true }
  let s2 := clearReconnectTimer s1
  let s3 := { s2 with wsConn := false, wsOpenState := false }
  (resetReconnectState s3, [])

/-! ### Operations and handlers (client-core.ts)

Each operation that sends takes a `sendErr` oracle: `none` means the
`sendWithProtocol` call delivered (transport open, a valid envelope was
built), `some e` that it threw with message `e` (transport not open, no
valid envelope even from the fallback builder, or `send` threw). -/

/-- The explicit correlation id and options of a `sendActionGoal` call
(`options.id ?? randomId(…)` resolved to `id`). -/
structure SendGoalOpts where
  id : String
  sessionId : Option String
  action : String
  actionType : String
  timeoutMs : Option ℚ
  onRequest : Bool
  onFeedback : Bool
  onResult : Bool

/-- The effective timeout of a call: `options.timeoutMs ?? this.options.timeoutMs`. -/
def effectiveTimeout (cfg : ClientConfig) (t : Option ℚ) : Option ℚ :=
  match t with
  | some v => some v
  | none => cfg.timeoutMs

/-- Should a timeout timer be armed: `typeof timeoutMs === "number" && timeoutMs > 0`. -/
def armsTimeout (cfg : ClientConfig) (t : Option ℚ) : Bool :=
  match effectiveTimeout cfg t with
  | some v => decide (0 < v)
  | none => false

/-- `subscribe`: add the callback to an existing entry and re-send only when
type or compression changed; otherwise record a fresh entry and send.  A
failed send leaves the recorded table entry in place. -/
def subscribeStep (topic typ : String) (cb : Nat) (compression : Option String)
    (sendErr : Option String) (s : ClientState) : ClientState × List Emit :=
  match mapGet s.subscriptions topic with
  | some existing =>
    let cbs := if existing.callbacks.contains cb then existing.callbacks
               else existing.callbacks ++ [cb]
    let shouldResubscribe := existing.type != typ || existing.compression != compression
    if !shouldResubscribe then
      ({ s with subscriptions :=
          mapSet s.subscriptions topic { existing with callbacks := cbs } }, [])
    else
      let entry := { existing with type := typ, compression := compression, callbacks := cbs }
      let s1 := { s with subscriptions := mapSet s.subscriptions topic entry }
      match sendErr with
      | none => (s1, [Emit.sendEv (Env.subscribe topic typ compression)])
      | some _ => (s1, [])
  | none =>
    let entry : SubscriptionInfo := { type := typ, compression := compression, callbacks := [cb] }
    let s1 := { s with subscriptions := mapSet s.subscriptions topic entry }
    match sendErr with
    | none => (s1, [Emit.sendEv (Env.subscribe topic typ compression)])
    | some _ => (s1, [])

/-- `unsubscribe`: drop the entry, send. -/
def unsubscribeStep (topic : String) (sendErr : Option String) (s : ClientState) :
    ClientState × List Emit :=
  let s1 := { s with subscriptions := mapDelete s.subscriptions topic }
  match sendErr with
  | none => (s1, [Emit.sendEv (Env.unsubscribe topic)])
  | some _ => (s1, [])

/-- `advertise`: record, send. -/
def advertiseStep (topic typ : String) (sendErr : Option String) (s : ClientState) :
    ClientState × List Emit :=
  let s1 := { s with advertisedTopics := mapSet s.advertisedTopics topic typ }
  match sendErr with
  | none => (s1, [Emit.sendEv (Env.advertise topic typ)])
  | some _ => (s1, [])

/-- `publish`: send only. -/
def publishStep (topic : String) (sendErr : Option String) (s : ClientState) :
    ClientState × List Emit :=
  match sendErr with
  | none => (s, [Emit.sendEv (Env.publish topic)])
  | some _ => (s, [])

/-- `callService`: record the pending call and optional timeout, send; a
synchronous send failure cleans both up and rejects the returned promise. -/
def callServiceStep (cfg : ClientConfig) (id service typ : String) (timeoutMs : Option ℚ)
    (sendErr : Option String) (s : ClientState) : ClientState × List Emit :=
  let arm := armsTimeout cfg timeoutMs
  let tid := if arm then some s.nextTimerId else none
  let s0 := if arm then
    { s with nextTimerId := s.nextTimerId + 1, liveTimeouts := s.liveTimeouts ++ [s.nextTimerId] }
    else s
  let s1 := { s0 with pendingCalls := mapSet s0.pendingCalls id { service := service, timeout := tid } }
  match sendErr with
  | none => (s1, [Emit.sendEv (Env.callService service typ id)])
  | some e =>
    ({ s1 with liveTimeouts := clearTimeoutId s1.liveTimeouts tid,
               pendingCalls := mapDelete s1.pendingCalls id },
     [Emit.settleCall id false e])

/-- `sendActionGoal`: eagerly record the pending action (and the session
index when a non-empty session id is supplied) and arm the optional timeout,
then send.  On a send failure the timeout is cleared, both entries are
removed and the error is rethrown — the promise returned by `sendActionGoal`
rejects; no `settleAction` event is emitted on this path, since
`rejectCompletion` is not called. -/
def sendActionGoalStep (cfg : ClientConfig) (o : SendGoalOpts) (sendErr : Option String)
    (s : ClientState) : ClientState × List Emit × Except String Unit :=
  let arm := armsTimeout cfg o.timeoutMs
  let tid := if arm then some s.nextTimerId else none
  let s0 := if arm then
    { s with nextTimerId := s.nextTimerId + 1, liveTimeouts := s.liveTimeouts ++ [s.nextTimerId] }
    else s
  let pa : PendingAction :=
    { id := o.id, sessionId := o.sessionId, action := o.action, actionType := o.actionType,
      timeout := tid, onRequest := o.onRequest, onFeedback := o.onFeedback,
      onResult := o.onResult }
  let s1 := { s0 with pendingActions := mapSet s0.pendingActions o.id pa }
  let s2 := match o.sessionId with
    | some sid =>
      if sid != "" then { s1 with actionIdBySession := mapSet s1.actionIdBySession sid o.id }
      else s1
    | none => s1
  match sendErr with
  | none =>
    (s2, [Emit.sendEv (Env.sendActionGoal o.action o.actionType o.id o.sessionId)], .ok ())
  | some e =>
    let s3 := { s2 with liveTimeouts := clearTimeoutId s2.liveTimeouts tid,
                        pendingActions := mapDelete s2.pendingActions o.id }
    let s4 := match o.sessionId with
      | some sid =>
        if sid != "" then { s3 with actionIdBySession := mapDelete s3.actionIdBySession sid }
        else s3
      | none => s3
    (s4, [], .error e)

/-- The cancel-table key: `"<action>::<sessionId ?? 'default'>"`. -/
def cancelKey (action : String) (sessionId : Option String) : String :=
  action ++ "::" ++ (match sessionId with | some sid => sid | none => "default")

/-- `cancelActionGoal`: record the pending cancel keyed by `(action, session)`
and the optional timeout, send; a send failure cleans up and rejects. -/
def cancelActionGoalStep (cfg : ClientConfig) (action actionType : String)
    (sessionId : Option String) (timeoutMs : Option ℚ) (sendErr : Option String)
    (s : ClientState) : ClientState × List Emit :=
  let key := cancelKey action sessionId
  let arm := armsTimeout cfg timeoutMs
  let tid := if arm then some s.nextTimerId else none
  let s0 := if arm then
    { s with nextTimerId := s.nextTimerId + 1, liveTimeouts := s.liveTimeouts ++ [s.nextTimerId] }
    else s
  let entry : PendingCancel := { key := key, action := action, timeout := tid }
  let s1 := { s0 with pendingActionCancels := mapSet s0.pendingActionCancels key entry }
  match sendErr with
  | none => (s1, [Emit.sendEv (Env.cancelActionGoal action actionType sessionId)])
  | some e =>
    ({ s1 with liveTimeouts := clearTimeoutId s1.liveTimeouts tid,
               pendingActionCancels := mapDelete s1.pendingActionCancels key },
     [Emit.settleCancel key false e])

/-- The `callService` timeout closure: delete the entry, reject.  When the
entry is already gone its promise has already settled; the closure's reject
is then a no-op, modelled as no effect. -/
def serviceTimeoutFire (id : String) (s : ClientState) : ClientState × List Emit :=
  match mapGet s.pendingCalls id with
  | none => (s, [])
  | some pc =>
    ({ s with pendingCalls := mapDelete s.pendingCalls id,
              liveTimeouts := clearTimeoutId s.liveTimeouts pc.timeout },
     [Emit.settleCall id false ("Service call timeout for " ++ pc.service ++ " (" ++ id ++ ")")])

/-- The `sendActionGoal` timeout closure: `this.pendingActions.delete(id)`
then reject the completion.  Note that, unlike `finishPendingAction`, it
does not remove the `actionIdBySession` entry. -/
def actionTimeoutFire (id : String) (s : ClientState) : ClientState × List Emit :=
  match mapGet s.pendingActions id with
  | none => (s, [])
  | some pa =>
    ({ s with pendingActions := mapDelete s.pendingActions id,
              liveTimeouts := clearTimeoutId s.liveTimeouts pa.timeout },
     [Emit.settleAction id false ("Action goal timeout for " ++ pa.action ++ " (" ++ id ++ ")")])

/-- The `cancelActionGoal` timeout closure. -/
def cancelTimeoutFire (key : String) (s : ClientState) : ClientState × List Emit :=
  match mapGet s.pendingActionCancels key with
  | none => (s, [])
  | some pc =>
    ({ s with pendingActionCancels := mapDelete s.pendingActionCancels key,
              liveTimeouts := clearTimeoutId s.liveTimeouts pc.timeout },
     [Emit.settleCancel key false
       ("Action cancel timeout for " ++ pc.action ++ " (" ++ key ++ ")")])

/-- The sole-pending fallback of `findPendingAction`: when exactly one
action is pending, return it. -/
def soleFallback (s : ClientState) : Option PendingAction :=
  if s.pendingActions.length = 1 then
    match s.pendingActions with
    | e :: _ => some e.2
    | [] => none
  else none

/-- The session branch of `findPendingAction`: a truthy `sessionId` with an
index entry returns the indexed lookup (which exits the function even when
the indexed action is no longer pending); otherwise fall through to the
sole-pending rule. -/
def findViaSession (s : ClientState) (sessionId : Option String) : Option PendingAction :=
  match sessionId with
  | some sid =>
    if sid != "" then
      match mapGet s.actionIdBySession sid with
      | some aid => if aid != "" then mapGet s.pendingActions aid else soleFallback s
      | none => soleFallback s
    else soleFallback s
  | none => soleFallback s

/-- `findPendingAction`: by truthy `id` present in the table, else through
the session index, else the sole pending action. -/
def findPendingAction (s : ClientState) (id sessionId : Option String) : Option PendingAction :=
  match id with
  | some i =>
    if i != "" && (mapGet s.pendingActions i).isSome then mapGet s.pendingActions i
    else findViaSession s sessionId
  | none => findViaSession s sessionId

/-- `finishPendingAction`: clear the timeout, remove the pending entry and
its session-index entry. -/
def finishPendingAction (id : String) (s : ClientState) : ClientState :=
  match mapGet s.pendingActions id with
  | none => s
  | some pa =>
    let s1 := { s with liveTimeouts := clearTimeoutId s.liveTimeouts pa.timeout,
                       pendingActions := mapDelete s.pendingActions id }
    match pa.sessionId with
    | some sid =>
      if sid != "" then { s1 with actionIdBySession := mapDelete s1.actionIdBySession sid }
      else s1
    | none => s1

/-- A decoded incoming envelope, reduced to the fields the dispatch reads.
`malformed` covers frames the codec failed to decode, and envelopes with
neither a recognized `op` nor a truthy `type`. -/
inductive Incoming where
  | publish (topic : Option String) (hasMsg : Bool)
  | serviceResponse (id : Option String) (result : Bool) (hasValues : Bool)
      (error : Option String) (service : Option String)
  | cancelActionResult (action : Option String) (result : Bool) (error : Option String)
      (sessionId : Option String)
  | actionResult (id : Option String) (sessionId : Option String) (error : Option String)
      (hasResult : Bool)
  | typed (type : String) (id : Option String) (sessionId : Option String)
      (status : Option Int) (message : Option String)
  | malformed

/-- `handleMessage` after decode: dispatch on the envelope discriminant,
returning after the first match.  Field presence mirrors the source's
truthiness checks (`!response.id` is true for an absent and for an empty
id). -/
def handleMessage (s : ClientState) (m : Incoming) : ClientState × List Emit :=
  match m with
  | .malformed => (s, [])
  | .publish topic hasMsg =>
    match topic with
    | none => (s, [])
    | some t =>
      if t == "" || !hasMsg then (s, [])
      else
        match mapGet s.subscriptions t with
        | none => (s, [])
        | some sub => (s, sub.callbacks.map (fun cb => Emit.publishEv t cb))
  | .serviceResponse id result _ error service =>
    match id with
    | none => (s, [])
    | some i =>
      if i == "" then (s, [])
      else
        match mapGet s.pendingCalls i with
        | none => (s, [])
        | some pending =>
          let s1 := { s with liveTimeouts := clearTimeoutId s.liveTimeouts pending.timeout,
                             pendingCalls := mapDelete s.pendingCalls i }
          if !result then
            (s1, [Emit.settleCall i false
              (match error with
               | some e => e
               | none => "Service call failed: " ++
                   (match service with | some sv => sv | none => pending.service))])
          else (s1, [Emit.settleCall i true ""])
  | .cancelActionResult action result error sessionId =>
    let key := (match action with | some a => a | none => "") ++ "::" ++
               (match sessionId with | some sid => sid | none => "default")
    match mapGet s.pendingActionCancels key with
    | none => (s, [])
    | some pending =>
      let s1 := { s with liveTimeouts := clearTimeoutId s.liveTimeouts pending.timeout,
                         pendingActionCancels := mapDelete s.pendingActionCancels key }
      if !result then
        (s1, [Emit.settleCancel key false
          (match error with
           | some e => e
           | none => "Action cancel failed for " ++
               (match action with | some a => a | none => "unknown"))])
      else (s1, [Emit.settleCancel key true ""])
  | .actionResult id sessionId error _ =>
    match findPendingAction s id sessionId with
    | none => (s, [])
    | some pending =>
      let s1 := finishPendingAction pending.id s
      let errTruthy := match error with | some e => e != "" | none => false
      if errTruthy then
        (s1, [Emit.settleAction pending.id false
          (match error with | some e => e | none => "")])
      else (s1, [Emit.settleAction pending.id true ""])
  | .typed ty id sessionId status message =>
    if ty == "" then (s, [])
    else
      match findPendingAction s id sessionId with
      | none => (s, [])
      | some pending =>
        if ty == "request" then
          (s, if pending.onRequest then [Emit.actionRequestEv pending.id] else [])
        else if ty == "feedback" then
          (s, if pending.onFeedback then [Emit.actionFeedbackEv pending.id] else [])
        else if ty == "result" then
          let hookEvs := if pending.onResult then [Emit.actionResultEv pending.id] else []
          let s1 := finishPendingAction pending.id s
          match status with
          | some st =>
            if st ≠ 0 then
              (s1, hookEvs ++ [Emit.settleAction pending.id false
                ("Action " ++ pending.id ++ " completed with non-success status " ++ toString st)])
            else (s1, hookEvs ++ [Emit.settleAction pending.id true ""])
          | none => (s1, hookEvs ++ [Emit.settleAction pending.id true ""])
        else if ty == "error" then
          let s1 := finishPendingAction pending.id s
          (s1, [Emit.settleAction pending.id false
            (match message with | some msg => msg | none => "action_error")])
        else (s, [])

/-- The envelopes `rebindState` sends: the subscription table in insertion
order (with each entry's current type and compression), then the advertised
topics. -/
def rebindEnvelopes (s : ClientState) : List Env :=
  s.subscriptions.map (fun e => Env.subscribe e.1 e.2.type e.2.compression) ++
  s.advertisedTopics.map (fun e => Env.advertise e.1 e.2)

/-- The sequential awaited sends of `rebindState`: `outcome i` is the result
of the i-th `sendWithProtocol` call.  Returns the delivered envelopes in
order and the first error, at which the loop stops. -/
def sendSeq (outcome : Nat → Option String) : List Env → Nat → List Env × Option String
  | [], _ => ([], none)
  | env :: rest, i =>
    match outcome i with
    | some e => ([], some e)
    | none =>
      let (sent, err) := sendSeq outcome rest (i + 1)
      (env :: sent, err)

/-- `rebindState`: re-send the subscription table, then the advertisements. -/
def rebindState (outcome : Nat → Option String) (s : ClientState) : List Env × Option String :=
  sendSeq outcome (rebindEnvelopes s) 0

/-- The `onopen` handler of `openSocket` (for the active generation): reset
reconnect state, replay subscriptions and advertisements; on success notify
`onSocketOpen` and resolve the connect promise, on a replay failure notify
`onSocketError`, schedule a reconnect with reason `connect_error` and reject
the connect promise. -/
def socketOpenedStep (cfg : ClientConfig) (url : String) (outcome : Nat → Option String)
    (rand : ℚ) (s : ClientState) : ClientState × List Emit × Except String Unit :=
  let s0 := { s with wsOpenState := true }
  let s1 := resetReconnectState s0
  let (sent, err) := rebindState outcome s1
  match err with
  | none => (s1, sent.map Emit.sendEv ++ [Emit.socketOpenEv url], .ok ())
  | some e =>
    let (s2, evs2) := scheduleReconnect cfg rand .connect_error s1
    (s2, sent.map Emit.sendEv ++ [Emit.socketErrorEv e] ++ evs2, .error e)

/-- The `onerror` handler (for the active generation). -/
def socketErroredStep (cfg : ClientConfig) (rand : ℚ) (s : ClientState) :
    ClientState × List Emit :=
  let (s1, evs) := scheduleReconnect cfg rand .socket_error s
  (s1, Emit.socketErrorEv "WebSocket connection error" :: evs)

/-- The `onclose` handler (for the active generation); the transport is no
longer open. -/
def socketClosedStep (cfg : ClientConfig) (rand : ℚ) (s : ClientState) :
    ClientState × List Emit :=
  let (s1, evs) := scheduleReconnect cfg rand .socket_close { s with wsOpenState := false }
  (s1, Emit.socketCloseEv :: evs)

/-- `connect` up to the synchronous part of `openSocket`: clear manual
close, store the URL, cancel any armed reconnect timer, close the previous
transport, then run the factory — a factory throw notifies `onSocketError`,
schedules with reason `open_socket_throw` and rejects. -/
def connectStep (cfg : ClientConfig) (url : String) (factoryThrows : Bool) (rand : ℚ)
    (s : ClientState) : ClientState × List Emit × Except String Unit :=
  let s1 := clearReconnectTimer { s with manualClose := false, wsUrl := some url }
  let s2 := { s1 with wsConn := false, wsOpenState := false }
  if factoryThrows then
    let (s3, evs) := scheduleReconnect cfg rand .open_socket_throw s2
    (s3, Emit.socketErrorEv "factory threw" :: evs, .error "factory threw")
  else
    ({ s2 with wsConn := true }, [], .ok ())

/-- The armed reconnect timer fires: clear the handle, re-run `openSocket`
on the stored URL.  A synchronous factory throw schedules with reason
`open_socket_throw` from inside `openSocket` and the rejected open promise
then schedules again with reason `connect_error`. -/
def timerFiredStep (cfg : ClientConfig) (openThrows : Bool) (rand : ℚ) (s : ClientState) :
    ClientState × List Emit :=
  match s.reconnectTimer with
  | none => (s, [])
  | some t =>
    let s1 := { s with reconnectTimer := none,
                       armedTimers := s.armedTimers.filter (fun x => x != t) }
    if openThrows then
      let (s2, evs2) := scheduleReconnect cfg rand .open_socket_throw s1
      let (s3, evs3) := scheduleReconnect cfg rand .connect_error s2
      (s3, Emit.socketErrorEv "factory threw" :: (evs2 ++ evs3))
    else
      ({ s1 with wsConn := true, wsOpenState := false }, [])

/-- Every entry point into the client core: application operations, socket
events for the active generation, and timer expirations.  (Events of a
stale socket generation return immediately and are not steps.) -/
inductive Ev where
  | connect (url : String) (factoryThrows : Bool) (rand : ℚ)
  | socketOpened (url : String) (outcome : Nat → Option String) (rand : ℚ)
  | socketErrored (rand : ℚ)
  | socketClosed (rand : ℚ)
  | closeCall
  | timerFired (openThrows : Bool) (rand : ℚ)
  | message (m : Incoming)
  | subscribeOp (topic typ : String) (cb : Nat) (compression : Option String)
      (sendErr : Option String)
  | unsubscribeOp (topic : String) (sendErr : Option String)
  | advertiseOp (topic typ : String) (sendErr : Option String)
  | publishOp (topic : String) (sendErr : Option String)
  | callServiceOp (id service typ : String) (timeoutMs : Option ℚ) (sendErr : Option String)
  | sendActionGoalOp (o : SendGoalOpts) (sendErr : Option String)
  | cancelActionGoalOp (action actionType : String) (sessionId : Option String)
      (timeoutMs : Option ℚ) (sendErr : Option String)
  | serviceTimeout (id : String)
  | actionTimeout (id : String)
  | cancelTimeout (key : String)

/-- One step of the client core. -/
def applyEv (cfg : ClientConfig) (e : Ev) (s : ClientState) : ClientState × List Emit :=
  match e with
  | .connect url ft rand =>
    let (s1, evs, _) := connectStep cfg url ft rand s
    (s1, evs)
  | .socketOpened url outcome rand =>
    let (s1, evs, _) := socketOpenedStep cfg url outcome rand s
    (s1, evs)
  | .socketErrored rand => socketErroredStep cfg rand s
  | .socketClosed rand => socketClosedStep cfg rand s
  | .closeCall => closeStep s
  | .timerFired ot rand => timerFiredStep cfg ot rand s
  | .message m => handleMessage s m
  | .subscribeOp topic typ cb compression sendErr => subscribeStep topic typ cb compression sendErr s
  | .unsubscribeOp topic sendErr => unsubscribeStep topic sendErr s
  | .advertiseOp topic typ sendErr => advertiseStep topic typ sendErr s
  | .publishOp topic sendErr => publishStep topic sendErr s
  | .callServiceOp id service typ timeoutMs sendErr =>
    callServiceStep cfg id service typ timeoutMs sendErr s
  | .sendActionGoalOp o sendErr =>
    let (s1, evs, _) := sendActionGoalStep cfg o sendErr s
    (s1, evs)
  | .cancelActionGoalOp action actionType sessionId timeoutMs sendErr =>
    cancelActionGoalStep cfg action actionType sessionId timeoutMs sendErr s
  | .serviceTimeout id => serviceTimeoutFire id s
  | .actionTimeout id => actionTimeoutFire id s
  | .cancelTimeout key => cancelTimeoutFire key s

/-- The state of a freshly constructed client. -/
def initialState : ClientState :=
  { manualClose := false, wsUrl := none, wsConn := false, wsOpenState := false,
    reconnectAttempt := 0, reconnectTimer := none, armedTimers := [], nextTimerId := 0,
    liveTimeouts := [], pendingCalls := [], pendingActions := [], actionIdBySession := [],
    pendingActionCancels := [], subscriptions := [], advertisedTopics := [] }

/-- States the client can be in: the initial state and everything the entry
points produce from it. -/
inductive Reachable (cfg : ClientConfig) : ClientState → Prop where
  | init : Reachable cfg initialState
  | step {s : ClientState} (e : Ev) : Reachable cfg s → Reachable cfg (applyEv cfg e s).1

/-- Run a list of entry points, accumulating emitted events. -/
def runEvs (cfg : ClientConfig) : List Ev → ClientState → ClientState × List Emit
  | [], s => (s, [])
  | e :: rest, s =>
    let (s1, evs1) := applyEv cfg e s
    let (s2, evs2) := runEvs cfg rest s1
    (s2, evs1 ++ evs2)

/-- Is the event a `connect` call (the only entry point that clears
manual-close)? -/
def isConnectEv : Ev → Bool
  | .connect _ _ _ => true
  | _ => false

/-! ### Auxiliary predicates and fixtures for the verification -/

/-- Prefix test on character lists. -/
def charsPreB : List Char → List Char → Bool
  | [], _ => true
  | _ :: _, [] => false
  | a :: as, b :: bs => a == b && charsPreB as bs

/-- Contiguous-occurrence test on character lists. -/
def charsSubB (pat : List Char) : List Char → Bool
  | [] => charsPreB pat []
  | b :: bs => charsPreB pat (b :: bs) || charsSubB pat bs

/-- Does the string `s` contain `pat` as a contiguous substring? -/
def containsSub (pat s : String) : Bool :=
  charsSubB pat.data s.data

/-- The reconnect-delay formula exactly as the claim words it: the initial
delay floored at 0, the maximum floored at the initial, and the multiplier
floored at 1, with the zero-jitter delay the floor of the capped
exponential. -/
def claimedDelaySpec (o : ReconnectOptions) (attempt : Nat) : ℚ :=
  let boundedInitial := max 0 o.initialDelayMs
  let boundedMax := max boundedInitial o.maxDelayMs
  let m := max 1 o.multiplier
  ((Int.floor (min (boundedInitial * m ^ (attempt - 1)) boundedMax) : ℤ) : ℚ)

/-- The delay formula the source computes at zero jitter: as above except
that the multiplier is replaced by 1 only when it is not positive — a
configured multiplier strictly between 0 and 1 is used as-is. -/
def codeDelaySpec (o : ReconnectOptions) (attempt : Nat) : ℚ :=
  let boundedInitial := max 0 o.initialDelayMs
  let boundedMax := max boundedInitial o.maxDelayMs
  let m := if 0 < o.multiplier then o.multiplier else 1
  ((Int.floor (min (boundedInitial * m ^ (attempt - 1)) boundedMax) : ℤ) : ℚ)

/-- The single-reconnect-timer invariant: the live reconnect timers are
exactly what the `reconnectTimer` handle points at (in particular there is
at most one). -/
def TimerOK (s : ClientState) : Prop :=
  s.armedTimers = s.reconnectTimer.toList

/-- Timer handles (reconnect and per-request) are drawn below the counter. -/
def TimersFresh (s : ClientState) : Prop :=
  (∀ t ∈ s.armedTimers, t < s.nextTimerId) ∧ (∀ t ∈ s.liveTimeouts, t < s.nextTimerId)

/-- The event's id fails to resolve a pending action: absent, empty (JS
falsy), or not a key of the table. -/
def idMisses (s : ClientState) (i : Option String) : Prop :=
  match i with
  | none => True
  | some x => x = "" ∨ mapGet s.pendingActions x = none

/-- The event's session id fails to resolve through the index: absent,
empty, unknown to the index, or indexed by a falsy action id. -/
def sessionMisses (s : ClientState) (sid : Option String) : Prop :=
  match sid with
  | none => True
  | some ss => ss = "" ∨ mapGet s.actionIdBySession ss = none ∨
      mapGet s.actionIdBySession ss = some ""

/-- A sample configuration: the defaults of `BridgeClientOptions.reconnect`
with jitter 0 and a 5000 ms default timeout. -/
def cfg0 : ClientConfig :=
  { timeoutMs := some 5000,
    reconnect := { enabled := true, initialDelayMs := 100, maxDelayMs := 30000,
                   multiplier := 2, jitterRatio := 0 },
    shouldRetry := none }

/-- A sample codec value exercising every constructor: an object with keys
"a" and "b", a safe integer, an array with booleans, null, the float 1.5
(binary64 pattern 0x3FF8000000000000), the string "hi", a byte buffer and a
negative integer. -/
def sampleCbor : CborValue :=
  .obj [([97], .int 1),
        ([98], .arr [.bool true, .nul, .float 4609434218613702656,
                     .str [104, 105], .bytes [0, 255], .int (-5)])]

/-- Reconnect options with a multiplier strictly between 0 and 1. -/
def optsHalf : ReconnectOptions :=
  { enabled := true, initialDelayMs := 100, maxDelayMs := 30000,
    multiplier := 1 / 2, jitterRatio := 0 }

/-- A sample pending action without session id. -/
def paA : PendingAction :=
  { id := "a1", sessionId := none, action := "/arm/move", actionType := "demo/MoveArm",
    timeout := none, onRequest := false, onFeedback := false, onResult := false }

/-- A second sample pending action. -/
def paB : PendingAction :=
  { id := "a2", sessionId := none, action := "/arm/wave", actionType := "demo/WaveArm",
    timeout := none, onRequest := false, onFeedback := false, onResult := false }

/-- A connected state with two pending actions and no session index. -/
def sTwoActions : ClientState :=
  { initialState with
    wsUrl := some "ws://x", wsConn := true, wsOpenState := true,
    pendingActions := [("a1", paA), ("a2", paB)] }

/-- A sample pending cancel with an armed timeout. -/
def pcA : PendingCancel :=
  { key := "/arm/move::s1", action := "/arm/move", timeout := some 7 }

/-- A connected state with one pending action and one pending cancel. -/
def sOneOfEach : ClientState :=
  { initialState with
    wsUrl := some "ws://x", wsConn := true, wsOpenState := true,
    nextTimerId := 8, liveTimeouts := [7],
    pendingActions := [("a1", paA)],
    pendingActionCancels := [("/arm/move::s1", pcA)],
    pendingCalls := [("c1", { service := "/demo/sum", timeout := none })] }

/-- A connected state with one subscription and one advertised topic. -/
def sReplay : ClientState :=
  { initialState with
    wsUrl := some "ws://x", wsConn := true, wsOpenState := true,
    subscriptions := [("/mock/status",
      { type := "std_msgs/String", compression := some "cbor-raw", callbacks := [1] })],
    advertisedTopics := [("/chatter", "std_msgs/String")] }

/-- A state with the reconnect timer armed (attempt 1 scheduled). -/
def sTimerArmed : ClientState :=
  { initialState with
    wsUrl := some "ws://x", reconnectAttempt := 1,
    reconnectTimer := some 0, armedTimers := [0], nextTimerId := 1 }

/-- Sample `sendActionGoal` options with a session id and a timeout. -/
def sgoA : SendGoalOpts :=
  { id := "a1", sessionId := some "s1", action := "/arm/move", actionType := "demo/MoveArm",
    timeoutMs := some 5000, onRequest := false, onFeedback := false, onResult := false }

/-- A connected idle state (no pending entries, no timers). -/
def sConnected : ClientState :=
  { initialState with wsUrl := some "ws://x", wsConn := true, wsOpenState := true }

/-! ## Theorems

General lemmas first, then one theorem per claim (with its witness or
counterexample). -/

theorem mapGet_nil {α : Type} (k : String) : mapGet ([] : List (String × α)) k = none := rfl

theorem mapGet_cons {α : Type} (k0 : String) (v0 : α) (rest : List (String × α)) (k : String) :
    mapGet ((k0, v0) :: rest) k = if k0 = k then some v0 else mapGet rest k := by
  by_cases h : k0 = k
  · simp [mapGet, List.find?, h]
  · simp only [mapGet, List.find?]
    have : (k0 == k) = false := by simp [h]
    simp [this, h]

theorem mapGet_set_self {α : Type} (m : List (String × α)) (k : String) (v : α) :
    mapGet (mapSet m k v) k = some v := by
  induction m with
  | nil => simp [mapSet, mapGet_cons]
  | cons e rest ih =>
    obtain ⟨k0, v0⟩ := e
    by_cases h : k0 = k
    · simp [mapSet, h, mapGet_cons]
    · have hb : (k0 == k) = false := by simp [h]
      simp [mapSet, hb, mapGet_cons, h, ih]

theorem mapGet_set_other {α : Type} (m : List (String × α)) (k k' : String) (v : α)
    (h : k ≠ k') : mapGet (mapSet m k v) k' = mapGet m k' := by
  induction m with
  | nil => simp [mapSet, mapGet_cons, h, mapGet_nil]
  | cons e rest ih =>
    obtain ⟨k0, v0⟩ := e
    by_cases h0 : k0 = k
    · subst h0
      simp [mapSet, mapGet_cons, h]
    · have hb : (k0 == k) = false := by simp [h0]
      simp [mapSet, hb, mapGet_cons, ih]

theorem mapGet_delete_self {α : Type} (m : List (String × α)) (k : String) :
    mapGet (mapDelete m k) k = none := by
  induction m with
  | nil => rfl
  | cons e rest ih =>
    obtain ⟨k0, v0⟩ := e
    by_cases h : k0 = k
    · simpa [mapDelete, h] using ih
    · have hb : (k0 == k) = false := by simp [h]
      simpa [mapDelete, hb, mapGet_cons, h] using ih

theorem mapGet_delete_other {α : Type} (m : List (String × α)) (k k' : String)
    (h : k ≠ k') : mapGet (mapDelete m k) k' = mapGet m k' := by
  induction m with
  | nil => rfl
  | cons e rest ih =>
    obtain ⟨k0, v0⟩ := e
    by_cases h0 : k0 = k
    · subst h0
      have hfilter : mapDelete ((k0, v0) :: rest) k0 = mapDelete rest k0 := by
        simp [mapDelete]
      rw [hfilter, ih, mapGet_cons]
      simp [h]
    · have hfilter : mapDelete ((k0, v0) :: rest) k = (k0, v0) :: mapDelete rest k := by
        simp [mapDelete, h0]
      rw [hfilter, mapGet_cons, mapGet_cons, ih]

/-- C10: an incoming `service_response` whose `id` is absent (or falsy) or
matches no pending call is silently ignored: no settlement event is emitted
and the state — every correlation table included — is unchanged. -/
theorem serviceResponse_unknown_id_ignored (s : ClientState) (id : Option String)
    (result hv : Bool) (error service : Option String)
    (h : match id with
         | none => True
         | some i => i = "" ∨ mapGet s.pendingCalls i = none) :
    handleMessage s (.serviceResponse id result hv error service) = (s, []) := by
  cases id with
  | none => simp [handleMessage]
  | some i =>
    rcases h with h | h
    · simp [handleMessage, h]
    · by_cases hi : i = ""
      · simp [handleMessage, hi]
      · simp [handleMessage, hi, h]

/-- C10 witness: a response for an unknown id against a state with one
(differently keyed) pending call. -/
theorem serviceResponse_unknown_id_ignored_witness :
    handleMessage sOneOfEach (.serviceResponse (some "c2") true false none none)
      = (sOneOfEach, []) :=
  serviceResponse_unknown_id_ignored sOneOfEach (some "c2") true false none none
    (Or.inr (by decide))

theorem findViaSession_of_miss (s : ClientState) (sid : Option String)
    (h : sessionMisses s sid) : findViaSession s sid = soleFallback s := by
  cases sid with
  | none => rfl
  | some ss =>
    rcases h with h | h | h
    · simp [findViaSession, h]
    · by_cases hss : ss = ""
      · simp [findViaSession, hss]
      · simp [findViaSession, hss, h]
    · by_cases hss : ss = ""
      · simp [findViaSession, hss]
      · simp [findViaSession, hss, h]

theorem findPendingAction_of_idMiss (s : ClientState) (i sid : Option String)
    (h : idMisses s i) : findPendingAction s i sid = findViaSession s sid := by
  cases i with
  | none => rfl
  | some x =>
    rcases h with h | h
    · simp [findPendingAction, h]
    · simp [findPendingAction, h]

theorem soleFallback_of_single (s : ClientState) (e : String × PendingAction)
    (h : s.pendingActions = [e]) : soleFallback s = some e.2 := by
  simp [soleFallback, h]

theorem soleFallback_of_not_single (s : ClientState) (h : s.pendingActions.length ≠ 1) :
    soleFallback s = none := by
  simp [soleFallback, h]

/-- C7: an incoming action event is attributed by id when it carries a
truthy id present in the pending-action table; otherwise through the session
index when it carries a truthy, indexed session id; otherwise to the sole
pending action when exactly one is pending; and when none of these apply —
in particular with two or more pending actions and no usable correlator —
the event is dropped with no effect. -/
theorem findPendingAction_resolution (s : ClientState) (i sid : Option String) :
    (∀ x, i = some x → x ≠ "" → ∀ pa, mapGet s.pendingActions x = some pa →
        findPendingAction s i sid = some pa) ∧
    (idMisses s i → ∀ ss, sid = some ss → ss ≠ "" →
        ∀ aid, mapGet s.actionIdBySession ss = some aid → aid ≠ "" →
        findPendingAction s i sid = mapGet s.pendingActions aid) ∧
    (idMisses s i → sessionMisses s sid → ∀ e, s.pendingActions = [e] →
        findPendingAction s i sid = some e.2) ∧
    (idMisses s i → sessionMisses s sid → s.pendingActions.length ≠ 1 →
        findPendingAction s i sid = none ∧
        handleMessage s (.actionResult i sid none false) = (s, []) ∧
        (∀ ty st msg, ty ≠ "" →
          handleMessage s (.typed ty i sid st msg) = (s, []))) := by
  refine ⟨?_, ?_, ?_, ?_⟩
  · intro x hx hne pa hpa
    subst hx
    simp [findPendingAction, hpa, bne_iff_ne, hne]
  · intro hm ss hss hne aid haid hane
    rw [findPendingAction_of_idMiss s i sid hm]
    subst hss
    simp [findViaSession, bne_iff_ne, hne, haid, hane]
  · intro hm hs e he
    rw [findPendingAction_of_idMiss s i sid hm, findViaSession_of_miss s sid hs,
        soleFallback_of_single s e he]
  · intro hm hs hlen
    have h4 : findPendingAction s i sid = none := by
      rw [findPendingAction_of_idMiss s i sid hm, findViaSession_of_miss s sid hs,
          soleFallback_of_not_single s hlen]
    refine ⟨h4, by simp [handleMessage, h4], ?_⟩
    intro ty st msg hty
    simp [handleMessage, h4, hty]

/-- C7 witness: two concurrent pending actions and an event with no
correlators — the lookup yields nothing and the event has no effect. -/
theorem findPendingAction_resolution_witness :
    findPendingAction sTwoActions none none = none ∧
    handleMessage sTwoActions (.actionResult none none none false) = (sTwoActions, []) := by
  have h := (findPendingAction_resolution sTwoActions none none).2.2.2
    trivial trivial (by decide)
  exact ⟨h.1, h.2.1⟩

theorem clearTimeoutId_none (l : List Nat) : clearTimeoutId l none = l := rfl

theorem filter_append_fresh (l : List Nat) (n : Nat) (h : ∀ t ∈ l, t < n) :
    (l ++ [n]).filter (fun x => x != n) = l := by
  rw [List.filter_append]
  have h1 : l.filter (fun x => x != n) = l :=
    List.filter_eq_self.mpr (fun a ha => by simpa using Nat.ne_of_lt (h a ha))
  simp [h1]

/-- C1 counterexample: a concrete `sendActionGoal` whose send fails with
"WebSocket is not connected".  The claim requires the completion promise of
the returned handle to reject, but the failing path emits no settlement at
all (`rejectCompletion` is never called): the emit list is empty and in
particular contains no completion rejection for the goal — the call itself
rethrows instead. -/
theorem sendActionGoal_sendFail_counterexample :
    (sendActionGoalStep cfg0 sgoA (some "WebSocket is not connected") sConnected).2.1 = [] ∧
    (sendActionGoalStep cfg0 sgoA (some "WebSocket is not connected") sConnected).2.2
      = .error "WebSocket is not connected" ∧
    ¬ (∃ ok msg, Emit.settleAction "a1" ok msg ∈
        (sendActionGoalStep cfg0 sgoA (some "WebSocket is not connected") sConnected).2.1) := by
  have h1 : (sendActionGoalStep cfg0 sgoA (some "WebSocket is not connected")
      sConnected).2.1 = [] := by decide
  refine ⟨h1, by rfl, ?_⟩
  rw [h1]
  rintro ⟨ok, msg, hmem⟩
  simp at hmem

/-- C1 (amended): for every `sendActionGoal` whose send fails, the pending
action entry and the session-index entry created for the goal are removed,
the armed timeout is cleared (the live-timeout population returns to what it
was), and the promise returned by `sendActionGoal` itself rejects with the
send error; no completion settlement is emitted on this path, so the
handle's `completion` is left forever pending rather than rejected. -/
theorem sendActionGoal_sendFail_rollback (cfg : ClientConfig) (o : SendGoalOpts)
    (e : String) (s : ClientState)
    (hfresh : ∀ t ∈ s.liveTimeouts, t < s.nextTimerId) :
    (sendActionGoalStep cfg o (some e) s).2.2 = .error e ∧
    mapGet (sendActionGoalStep cfg o (some e) s).1.pendingActions o.id = none ∧
    (∀ sid, o.sessionId = some sid → sid ≠ "" →
      mapGet (sendActionGoalStep cfg o (some e) s).1.actionIdBySession sid = none) ∧
    (sendActionGoalStep cfg o (some e) s).1.liveTimeouts = s.liveTimeouts ∧
    (sendActionGoalStep cfg o (some e) s).2.1 = [] := by
  by_cases harm : armsTimeout cfg o.timeoutMs
  all_goals cases hsid : o.sessionId with
  | none =>
    refine ⟨rfl, ?_, ?_, ?_, rfl⟩ <;>
      simp [sendActionGoalStep, harm, hsid, mapGet_delete_self, clearTimeoutId,
            filter_append_fresh s.liveTimeouts s.nextTimerId hfresh]
  | some sid =>
    by_cases hemp : sid = ""
    all_goals refine ⟨rfl, ?_, ?_, ?_, rfl⟩ <;>
      simp [sendActionGoalStep, harm, hsid, hemp, mapGet_delete_self, clearTimeoutId,
            filter_append_fresh s.liveTimeouts s.nextTimerId hfresh]

/-- C1 witness: the amended rollback instantiated at the sample inputs. -/
theorem sendActionGoal_sendFail_rollback_witness :
    (sendActionGoalStep cfg0 sgoA (some "boom") sConnected).2.2 = .error "boom" ∧
    mapGet (sendActionGoalStep cfg0 sgoA (some "boom") sConnected).1.pendingActions "a1"
      = none ∧
    mapGet (sendActionGoalStep cfg0 sgoA (some "boom") sConnected).1.actionIdBySession "s1"
      = none ∧
    (sendActionGoalStep cfg0 sgoA (some "boom") sConnected).1.liveTimeouts
      = sConnected.liveTimeouts := by
  have h := sendActionGoal_sendFail_rollback cfg0 sgoA "boom" sConnected (by decide)
  exact ⟨h.1, h.2.1, h.2.2.1 "s1" rfl (by decide), h.2.2.2.1⟩

theorem charsPreB_refl (l : List Char) : charsPreB l l = true := by
  induction l with
  | nil => rfl
  | cons a as ih => simp [charsPreB, ih]

theorem charsSubB_append (pre pat : List Char) : charsSubB pat (pre ++ pat) = true := by
  induction pre with
  | nil =>
    cases pat with
    | nil => rfl
    | cons b bs => simp [charsSubB, charsPreB_refl]
  | cons a as ih => simp [charsSubB, ih]

theorem containsSub_of_append (pre pat : String) : containsSub pat (pre ++ pat) = true := by
  simp [containsSub, String.data_append, charsSubB_append]

theorem rejectPendingActions_spec (s : ClientState) :
    (rejectPendingActionsOnDisconnect s).1.pendingActions = [] ∧
    (rejectPendingActionsOnDisconnect s).1.actionIdBySession = [] ∧
    (rejectPendingActionsOnDisconnect s).1.pendingActionCancels = [] ∧
    (rejectPendingActionsOnDisconnect s).1.pendingCalls = s.pendingCalls ∧
    (rejectPendingActionsOnDisconnect s).2 =
      s.pendingActions.map (fun e => Emit.settleAction e.2.id false
        ("Action " ++ e.2.id ++ " interrupted by disconnect; resend after reconnect")) ++
      s.pendingActionCancels.map (fun e => Emit.settleCancel e.2.key false
        "Action cancel interrupted by disconnect; retry after reconnect") :=
  ⟨rfl, rfl, rfl, rfl, rfl⟩

theorem rejectPA_attempt (s : ClientState) :
    (rejectPendingActionsOnDisconnect s).1.reconnectAttempt = s.reconnectAttempt := rfl

theorem rejectPA_timer (s : ClientState) :
    (rejectPendingActionsOnDisconnect s).1.reconnectTimer = s.reconnectTimer := rfl

theorem rejectPA_armed (s : ClientState) :
    (rejectPendingActionsOnDisconnect s).1.armedTimers = s.armedTimers := rfl

theorem rejectPA_manualClose (s : ClientState) :
    (rejectPendingActionsOnDisconnect s).1.manualClose = s.manualClose := rfl

theorem scheduleReconnect_spec (cfg : ClientConfig) (rand : ℚ) (reason : Reason)
    (s : ClientState) :
    ((scheduleReconnect cfg rand reason s).2 = (rejectPendingActionsOnDisconnect s).2 ∨
      (scheduleReconnect cfg rand reason s).2 = (rejectPendingActionsOnDisconnect s).2 ++
        [Emit.reconnectScheduled (s.reconnectAttempt + 1)
          (computeReconnectDelayMs cfg.reconnect rand (s.reconnectAttempt + 1)) reason]) ∧
    (scheduleReconnect cfg rand reason s).1.pendingActions = [] ∧
    (scheduleReconnect cfg rand reason s).1.actionIdBySession = [] ∧
    (scheduleReconnect cfg rand reason s).1.pendingActionCancels = [] ∧
    (scheduleReconnect cfg rand reason s).1.pendingCalls = s.pendingCalls := by
  have hspec := rejectPendingActions_spec s
  have hatt := rejectPA_attempt s
  unfold scheduleReconnect
  cases hre : rejectPendingActionsOnDisconnect s with
  | mk s1 evs =>
    rw [hre] at hspec hatt
    dsimp only at hspec hatt ⊢
    split_ifs <;>
      simp_all

theorem no_settleCall_in_reject (s : ClientState) (i : String) (ok : Bool) (msg : String) :
    Emit.settleCall i ok msg ∉ (rejectPendingActionsOnDisconnect s).2 := by
  intro hmem
  rw [(rejectPendingActions_spec s).2.2.2.2] at hmem
  rcases List.mem_append.mp hmem with h | h <;>
    · rcases List.mem_map.mp h with ⟨a, -, ha⟩
      exact Emit.noConfusion ha

/-- C2 counterexample: a transport close with one pending cancel.  The
cancel is rejected with "Action cancel interrupted by disconnect; retry
after reconnect", whose message does not contain the claimed substring
"interrupted by disconnect; resend after reconnect". -/
theorem disconnect_cancel_message_counterexample :
    Emit.settleCancel "/arm/move::s1" false
        "Action cancel interrupted by disconnect; retry after reconnect"
      ∈ (socketClosedStep cfg0 0 sOneOfEach).2 ∧
    containsSub "interrupted by disconnect; resend after reconnect"
        "Action cancel interrupted by disconnect; retry after reconnect" = false := by
  constructor
  · decide
  · decide

/-- C2 (amended): on a transport close, every pending action completion is
rejected with a message containing "interrupted by disconnect; resend after
reconnect", every pending cancel is rejected with a message containing
"interrupted by disconnect; retry after reconnect" (the cancel message says
"retry", not the claimed "resend"), the pending-action, session-index and
pending-cancel tables are cleared, and no pending service call is rejected
(the pending-call table is unchanged and no `settleCall` event occurs). -/
theorem disconnect_rejections (cfg : ClientConfig) (rand : ℚ) (s : ClientState) :
    (∀ e ∈ s.pendingActions,
      ∃ msg, Emit.settleAction e.2.id false msg ∈ (socketClosedStep cfg rand s).2 ∧
        containsSub "interrupted by disconnect; resend after reconnect" msg = true) ∧
    (∀ e ∈ s.pendingActionCancels,
      ∃ msg, Emit.settleCancel e.2.key false msg ∈ (socketClosedStep cfg rand s).2 ∧
        containsSub "interrupted by disconnect; retry after reconnect" msg = true) ∧
    (socketClosedStep cfg rand s).1.pendingActions = [] ∧
    (socketClosedStep cfg rand s).1.actionIdBySession = [] ∧
    (socketClosedStep cfg rand s).1.pendingActionCancels = [] ∧
    (socketClosedStep cfg rand s).1.pendingCalls = s.pendingCalls ∧
    (∀ i ok msg, Emit.settleCall i ok msg ∉ (socketClosedStep cfg rand s).2) := by
  have hsch := scheduleReconnect_spec cfg rand .socket_close { s with wsOpenState := false }
  have hrej := rejectPendingActions_spec { s with wsOpenState := false }
  have hstep : socketClosedStep cfg rand s =
      ((scheduleReconnect cfg rand .socket_close { s with wsOpenState := false }).1,
        Emit.socketCloseEv ::
          (scheduleReconnect cfg rand .socket_close { s with wsOpenState := false }).2) := rfl
  have hmemSched : ∀ x ∈ (rejectPendingActionsOnDisconnect { s with wsOpenState := false }).2,
      x ∈ (scheduleReconnect cfg rand .socket_close { s with wsOpenState := false }).2 := by
    intro x hx
    rcases hsch.1 with h | h
    · rw [h]; exact hx
    · rw [h]; exact List.mem_append_left _ hx
  refine ⟨?_, ?_, ?_, ?_, ?_, ?_, ?_⟩
  · intro e he
    refine ⟨"Action " ++ e.2.id ++ " interrupted by disconnect; resend after reconnect",
      ?_, ?_⟩
    · rw [hstep]
      refine List.mem_cons_of_mem _ (hmemSched _ ?_)
      rw [hrej.2.2.2.2]
      refine List.mem_append_left _ (List.mem_map.mpr ⟨e, he, rfl⟩)
    · have : ("Action " ++ e.2.id ++ " ") ++
          "interrupted by disconnect; resend after reconnect" =
          "Action " ++ e.2.id ++ " interrupted by disconnect; resend after reconnect" := by
        have h1 : (" " : String) ++ "interrupted by disconnect; resend after reconnect" =
            " interrupted by disconnect; resend after reconnect" := rfl
        rw [String.append_assoc ("Action " ++ e.2.id) " "
            "interrupted by disconnect; resend after reconnect", h1]
      rw [← this]
      exact containsSub_of_append _ _
  · intro e he
    refine ⟨"Action cancel interrupted by disconnect; retry after reconnect", ?_, ?_⟩
    · rw [hstep]
      refine List.mem_cons_of_mem _ (hmemSched _ ?_)
      rw [hrej.2.2.2.2]
      refine List.mem_append_right _ (List.mem_map.mpr ⟨e, he, rfl⟩)
    · have : ("Action cancel " : String) ++
          "interrupted by disconnect; retry after reconnect" =
          "Action cancel interrupted by disconnect; retry after reconnect" := rfl
      rw [← this]
      exact containsSub_of_append _ _
  · rw [hstep]; exact hsch.2.1
  · rw [hstep]; exact hsch.2.2.1
  · rw [hstep]; exact hsch.2.2.2.1
  · rw [hstep]; exact hsch.2.2.2.2
  · intro i ok msg hmem
    rw [hstep] at hmem
    rcases List.mem_cons.mp hmem with h | h
    · exact Emit.noConfusion h
    · rcases hsch.1 with he | he
      · rw [he] at h
        exact no_settleCall_in_reject _ i ok msg h
      · rw [he] at h
        rcases List.mem_append.mp h with h2 | h2
        · exact no_settleCall_in_reject _ i ok msg h2
        · rcases List.mem_singleton.mp h2 with h3
          exact Emit.noConfusion h3

/-- C2 witness: the amended statement at the sample state with one pending
action, one pending cancel and one pending service call. -/
theorem disconnect_rejections_witness :
    (∃ msg, Emit.settleAction "a1" false msg ∈ (socketClosedStep cfg0 0 sOneOfEach).2 ∧
      containsSub "interrupted by disconnect; resend after reconnect" msg = true) ∧
    (∃ msg, Emit.settleCancel "/arm/move::s1" false msg
        ∈ (socketClosedStep cfg0 0 sOneOfEach).2 ∧
      containsSub "interrupted by disconnect; retry after reconnect" msg = true) ∧
    (socketClosedStep cfg0 0 sOneOfEach).1.pendingCalls = sOneOfEach.pendingCalls := by
  have h := disconnect_rejections cfg0 0 sOneOfEach
  exact ⟨h.1 ("a1", paA) (by decide), h.2.1 ("/arm/move::s1", pcA) (by decide),
    h.2.2.2.2.2.1⟩

/-- C3 (the code evaluated at the failing input): send a goal with session
id "s1" and a timeout, then let the timeout fire.  The completion is
rejected and the pending-action entry removed, but the session-index entry
"s1" → "a1" survives: the timeout callback, unlike `finishPendingAction`,
never touches `actionIdBySession`. -/
theorem actionTimeout_leaves_session_index :
    (actionTimeoutFire "a1" (sendActionGoalStep cfg0 sgoA none sConnected).1).2
      = [Emit.settleAction "a1" false "Action goal timeout for /arm/move (a1)"] ∧
    mapGet (actionTimeoutFire "a1"
        (sendActionGoalStep cfg0 sgoA none sConnected).1).1.pendingActions "a1" = none ∧
    mapGet (actionTimeoutFire "a1"
        (sendActionGoalStep cfg0 sgoA none sConnected).1).1.actionIdBySession "s1"
      = some "a1" := by
  refine ⟨by decide, by decide, by decide⟩

theorem timerOK_of_eq {s s' : ClientState} (ht : s'.reconnectTimer = s.reconnectTimer)
    (ha : s'.armedTimers = s.armedTimers) (h : TimerOK s) : TimerOK s' := by
  unfold TimerOK at *
  rw [ht, ha, h]

theorem timerOK_clear (s : ClientState) (h : TimerOK s) : TimerOK (clearReconnectTimer s) := by
  unfold TimerOK at *
  unfold clearReconnectTimer
  cases htm : s.reconnectTimer with
  | none => simpa [htm] using h
  | some t =>
    rw [htm] at h
    simp [h]

theorem timerOK_reset (s : ClientState) (h : TimerOK s) : TimerOK (resetReconnectState s) :=
  timerOK_of_eq rfl rfl (timerOK_clear s h)

theorem timerOK_close (s : ClientState) (h : TimerOK s) : TimerOK (closeStep s).1 := by
  unfold TimerOK at h ⊢
  cases htm : s.reconnectTimer with
  | none =>
    rw [htm] at h
    simp only [Option.toList] at h
    simp [closeStep, clearReconnectTimer, resetReconnectState, htm, h]
  | some t =>
    rw [htm] at h
    simp only [Option.toList] at h
    simp [closeStep, clearReconnectTimer, resetReconnectState, htm, h]

theorem timerOK_schedule (cfg : ClientConfig) (rand : ℚ) (reason : Reason) (s : ClientState)
    (h : TimerOK s) : TimerOK (scheduleReconnect cfg rand reason s).1 := by
  have h1 : TimerOK (rejectPendingActionsOnDisconnect s).1 := timerOK_of_eq rfl rfl h
  unfold scheduleReconnect
  cases hre : rejectPendingActionsOnDisconnect s with
  | mk s1 evs =>
    rw [hre] at h1
    dsimp only at h1 ⊢
    split_ifs with h2 h3 h4
    · exact h1
    · exact h1
    · exact h1
    · unfold TimerOK at h1 ⊢
      dsimp only
      rw [h1]
      cases htm : s1.reconnectTimer with
      | none => simp
      | some t => rw [htm] at h4; simp at h4

theorem finishPendingAction_timers (id : String) (s : ClientState) :
    (finishPendingAction id s).reconnectTimer = s.reconnectTimer ∧
    (finishPendingAction id s).armedTimers = s.armedTimers := by
  unfold finishPendingAction
  repeat' split
  all_goals exact ⟨rfl, rfl⟩

theorem handleMessage_timers (s : ClientState) (m : Incoming) :
    (handleMessage s m).1.reconnectTimer = s.reconnectTimer ∧
    (handleMessage s m).1.armedTimers = s.armedTimers := by
  cases m <;> unfold handleMessage <;> dsimp only <;> repeat' split
  all_goals
    first
      | exact ⟨rfl, rfl⟩
      | exact finishPendingAction_timers _ _

theorem subscribeStep_timers (topic typ : String) (cb : Nat) (compression : Option String)
    (sendErr : Option String) (s : ClientState) :
    (subscribeStep topic typ cb compression sendErr s).1.reconnectTimer = s.reconnectTimer ∧
    (subscribeStep topic typ cb compression sendErr s).1.armedTimers = s.armedTimers := by
  unfold subscribeStep
  (try dsimp only)
  repeat' split
  all_goals exact ⟨rfl, rfl⟩

theorem unsubscribeStep_timers (topic : String) (sendErr : Option String) (s : ClientState) :
    (unsubscribeStep topic sendErr s).1.reconnectTimer = s.reconnectTimer ∧
    (unsubscribeStep topic sendErr s).1.armedTimers = s.armedTimers := by
  unfold unsubscribeStep
  (try dsimp only)
  repeat' split
  all_goals exact ⟨rfl, rfl⟩

theorem advertiseStep_timers (topic typ : String) (sendErr : Option String) (s : ClientState) :
    (advertiseStep topic typ sendErr s).1.reconnectTimer = s.reconnectTimer ∧
    (advertiseStep topic typ sendErr s).1.armedTimers = s.armedTimers := by
  unfold advertiseStep
  (try dsimp only)
  repeat' split
  all_goals exact ⟨rfl, rfl⟩

theorem publishStep_timers (topic : String) (sendErr : Option String) (s : ClientState) :
    (publishStep topic sendErr s).1.reconnectTimer = s.reconnectTimer ∧
    (publishStep topic sendErr s).1.armedTimers = s.armedTimers := by
  unfold publishStep
  (try dsimp only)
  repeat' split
  all_goals exact ⟨rfl, rfl⟩

theorem callServiceStep_timers (cfg : ClientConfig) (id service typ : String)
    (timeoutMs : Option ℚ) (sendErr : Option String) (s : ClientState) :
    (callServiceStep cfg id service typ timeoutMs sendErr s).1.reconnectTimer
      = s.reconnectTimer ∧
    (callServiceStep cfg id service typ timeoutMs sendErr s).1.armedTimers
      = s.armedTimers := by
  unfold callServiceStep
  (try dsimp only)
  repeat' split
  all_goals exact ⟨rfl, rfl⟩

theorem sendActionGoalStep_timers (cfg : ClientConfig) (o : SendGoalOpts)
    (sendErr : Option String) (s : ClientState) :
    (sendActionGoalStep cfg o sendErr s).1.reconnectTimer = s.reconnectTimer ∧
    (sendActionGoalStep cfg o sendErr s).1.armedTimers = s.armedTimers := by
  unfold sendActionGoalStep
  (try dsimp only)
  repeat' split
  all_goals exact ⟨rfl, rfl⟩

theorem cancelActionGoalStep_timers (cfg : ClientConfig) (action actionType : String)
    (sessionId : Option String) (timeoutMs : Option ℚ) (sendErr : Option String)
    (s : ClientState) :
    (cancelActionGoalStep cfg action actionType sessionId timeoutMs sendErr s).1.reconnectTimer
      = s.reconnectTimer ∧
    (cancelActionGoalStep cfg action actionType sessionId timeoutMs sendErr s).1.armedTimers
      = s.armedTimers := by
  unfold cancelActionGoalStep
  (try dsimp only)
  repeat' split
  all_goals exact ⟨rfl, rfl⟩

theorem serviceTimeoutFire_timers (id : String) (s : ClientState) :
    (serviceTimeoutFire id s).1.reconnectTimer = s.reconnectTimer ∧
    (serviceTimeoutFire id s).1.armedTimers = s.armedTimers := by
  unfold serviceTimeoutFire
  (try dsimp only)
  repeat' split
  all_goals exact ⟨rfl, rfl⟩

theorem actionTimeoutFire_timers (id : String) (s : ClientState) :
    (actionTimeoutFire id s).1.reconnectTimer = s.reconnectTimer ∧
    (actionTimeoutFire id s).1.armedTimers = s.armedTimers := by
  unfold actionTimeoutFire
  (try dsimp only)
  repeat' split
  all_goals exact ⟨rfl, rfl⟩

theorem cancelTimeoutFire_timers (key : String) (s : ClientState) :
    (cancelTimeoutFire key s).1.reconnectTimer = s.reconnectTimer ∧
    (cancelTimeoutFire key s).1.armedTimers = s.armedTimers := by
  unfold cancelTimeoutFire
  (try dsimp only)
  repeat' split
  all_goals exact ⟨rfl, rfl⟩

theorem no_reconnectScheduled_in_reject (s : ClientState) (a : Nat) (d : ℚ) (r : Reason) :
    Emit.reconnectScheduled a d r ∉ (rejectPendingActionsOnDisconnect s).2 := by
  intro hmem
  rw [(rejectPendingActions_spec s).2.2.2.2] at hmem
  rcases List.mem_append.mp hmem with h | h <;>
    · rcases List.mem_map.mp h with ⟨x, -, hx⟩
      exact Emit.noConfusion hx

theorem timerOK_timerFired (cfg : ClientConfig) (ot : Bool) (rand : ℚ) (s : ClientState)
    (h : TimerOK s) : TimerOK (timerFiredStep cfg ot rand s).1 := by
  unfold timerFiredStep
  cases htm : s.reconnectTimer with
  | none => exact h
  | some t =>
    have h1 : TimerOK { s with
        reconnectTimer := none, armedTimers := s.armedTimers.filter (fun x => x != t) } := by
      unfold TimerOK at h ⊢
      rw [htm] at h
      simp only [Option.toList] at h
      simp [h]
    dsimp only
    cases ot with
    | false => exact timerOK_of_eq rfl rfl h1
    | true =>
      have h2 := timerOK_schedule cfg rand .open_socket_throw _ h1
      cases h2a : scheduleReconnect cfg rand Reason.open_socket_throw
          { s with
            reconnectTimer := none, armedTimers := s.armedTimers.filter (fun x => x != t) } with
      | mk s2 evs2 =>
        rw [h2a] at h2
        have h3 := timerOK_schedule cfg rand .connect_error s2 h2
        cases h3a : scheduleReconnect cfg rand Reason.connect_error s2 with
        | mk s3 evs3 =>
          rw [h3a] at h3
          simp only [h2a, h3a]
          exact h3

theorem timerOK_socketOpened (cfg : ClientConfig) (url : String)
    (outcome : Nat → Option String) (rand : ℚ) (s : ClientState)
    (h : TimerOK s) : TimerOK (socketOpenedStep cfg url outcome rand s).1 := by
  unfold socketOpenedStep
  have h1 : TimerOK (resetReconnectState { s with wsOpenState := true }) :=
    timerOK_reset _ (timerOK_of_eq rfl rfl h)
  dsimp only
  cases hrb : rebindState outcome (resetReconnectState { s with wsOpenState := true }) with
  | mk sent err =>
    cases err with
    | none => exact h1
    | some e =>
      have h2 := timerOK_schedule cfg rand .connect_error _ h1
      cases h2a : scheduleReconnect cfg rand Reason.connect_error
          (resetReconnectState { s with wsOpenState := true }) with
      | mk s2 evs2 =>
        rw [h2a] at h2
        exact h2

theorem timerOK_connect (cfg : ClientConfig) (url : String) (ft : Bool) (rand : ℚ)
    (s : ClientState) (h : TimerOK s) : TimerOK (connectStep cfg url ft rand s).1 := by
  unfold connectStep
  have h1 : TimerOK (clearReconnectTimer { s with manualClose := false, wsUrl := some url }) :=
    timerOK_clear _ (timerOK_of_eq rfl rfl h)
  dsimp only
  cases ft with
  | false => exact timerOK_of_eq rfl rfl h1
  | true =>
    have h2 := timerOK_schedule cfg rand .open_socket_throw
      { clearReconnectTimer { s with manualClose := false, wsUrl := some url } with
        wsConn := false, wsOpenState := false } (timerOK_of_eq rfl rfl h1)
    cases h2a : scheduleReconnect cfg rand Reason.open_socket_throw
        { clearReconnectTimer { s with manualClose := false, wsUrl := some url } with
          wsConn := false, wsOpenState := false } with
    | mk s2 evs2 =>
      rw [h2a] at h2
      simp only [h2a]
      exact h2

theorem timerOK_step (cfg : ClientConfig) (e : Ev) (s : ClientState) (h : TimerOK s) :
    TimerOK (applyEv cfg e s).1 := by
  cases e with
  | connect url ft rand =>
    have hc := timerOK_connect cfg url ft rand s h
    unfold applyEv
    dsimp only
    cases hx : connectStep cfg url ft rand s with
    | mk s1 rest =>
      cases rest with
      | mk evs r =>
        rw [hx] at hc
        exact hc
  | socketOpened url outcome rand =>
    have hc := timerOK_socketOpened cfg url outcome rand s h
    unfold applyEv
    dsimp only
    cases hx : socketOpenedStep cfg url outcome rand s with
    | mk s1 rest =>
      cases rest with
      | mk evs r =>
        rw [hx] at hc
        exact hc
  | socketErrored rand =>
    have hc := timerOK_schedule cfg rand .socket_error s h
    unfold applyEv socketErroredStep
    dsimp only
    cases hx : scheduleReconnect cfg rand Reason.socket_error s with
    | mk s1 evs =>
      rw [hx] at hc
      exact hc
  | socketClosed rand =>
    have hc := timerOK_schedule cfg rand .socket_close
      { s with wsOpenState := false } (timerOK_of_eq rfl rfl h)
    unfold applyEv socketClosedStep
    dsimp only
    cases hx : scheduleReconnect cfg rand Reason.socket_close
        { s with wsOpenState := false } with
    | mk s1 evs =>
      rw [hx] at hc
      exact hc
  | closeCall => exact timerOK_close s h
  | timerFired ot rand => exact timerOK_timerFired cfg ot rand s h
  | message m =>
    exact timerOK_of_eq (handleMessage_timers s m).1 (handleMessage_timers s m).2 h
  | subscribeOp topic typ cb compression sendErr =>
    exact timerOK_of_eq (subscribeStep_timers topic typ cb compression sendErr s).1
      (subscribeStep_timers topic typ cb compression sendErr s).2 h
  | unsubscribeOp topic sendErr =>
    exact timerOK_of_eq (unsubscribeStep_timers topic sendErr s).1
      (unsubscribeStep_timers topic sendErr s).2 h
  | advertiseOp topic typ sendErr =>
    exact timerOK_of_eq (advertiseStep_timers topic typ sendErr s).1
      (advertiseStep_timers topic typ sendErr s).2 h
  | publishOp topic sendErr =>
    exact timerOK_of_eq (publishStep_timers topic sendErr s).1
      (publishStep_timers topic sendErr s).2 h
  | callServiceOp id service typ timeoutMs sendErr =>
    exact timerOK_of_eq (callServiceStep_timers cfg id service typ timeoutMs sendErr s).1
      (callServiceStep_timers cfg id service typ timeoutMs sendErr s).2 h
  | sendActionGoalOp o sendErr =>
    have hw := sendActionGoalStep_timers cfg o sendErr s
    unfold applyEv
    dsimp only
    cases hx : sendActionGoalStep cfg o sendErr s with
    | mk s1 rest =>
      cases rest with
      | mk evs r =>
        rw [hx] at hw
        exact timerOK_of_eq hw.1 hw.2 h
  | cancelActionGoalOp action actionType sessionId timeoutMs sendErr =>
    exact timerOK_of_eq
      (cancelActionGoalStep_timers cfg action actionType sessionId timeoutMs sendErr s).1
      (cancelActionGoalStep_timers cfg action actionType sessionId timeoutMs sendErr s).2 h
  | serviceTimeout id =>
    exact timerOK_of_eq (serviceTimeoutFire_timers id s).1 (serviceTimeoutFire_timers id s).2 h
  | actionTimeout id =>
    exact timerOK_of_eq (actionTimeoutFire_timers id s).1 (actionTimeoutFire_timers id s).2 h
  | cancelTimeout key =>
    exact timerOK_of_eq (cancelTimeoutFire_timers key s).1 (cancelTimeoutFire_timers key s).2 h

theorem reachable_timerOK (cfg : ClientConfig) (s : ClientState) (h : Reachable cfg s) :
    TimerOK s := by
  induction h with
  | init => rfl
  | step e hs ih => exact timerOK_step cfg e _ ih

/-- C5: at every reachable client state at most one reconnect timer is
armed, and calling the scheduler while a timer is armed is a no-op: the
handle and the armed-timer population are unchanged, the attempt counter is
not incremented, and no `reconnectScheduled` notification is emitted. -/
theorem single_reconnect_timer (cfg : ClientConfig) :
    (∀ s, Reachable cfg s → s.armedTimers.length ≤ 1) ∧
    (∀ s (rand : ℚ) (reason : Reason) (t : Nat), s.reconnectTimer = some t →
      (scheduleReconnect cfg rand reason s).1.reconnectTimer = some t ∧
      (scheduleReconnect cfg rand reason s).1.armedTimers = s.armedTimers ∧
      (scheduleReconnect cfg rand reason s).1.reconnectAttempt = s.reconnectAttempt ∧
      (∀ (a : Nat) (d : ℚ) (r : Reason),
        Emit.reconnectScheduled a d r ∉ (scheduleReconnect cfg rand reason s).2)) := by
  constructor
  · intro s hs
    have h := reachable_timerOK cfg s hs
    unfold TimerOK at h
    rw [h]
    cases s.reconnectTimer <;> simp
  · intro s rand reason t htm
    have ht1 : (rejectPendingActionsOnDisconnect s).1.reconnectTimer = some t := by
      rw [rejectPA_timer s, htm]
    have ha1 := rejectPA_armed s
    have hat := rejectPA_attempt s
    unfold scheduleReconnect
    cases hre : rejectPendingActionsOnDisconnect s with
    | mk s1 evs =>
      rw [hre] at ht1 ha1 hat
      dsimp only at ht1 ha1 hat ⊢
      have hnr : ∀ (a : Nat) (d : ℚ) (r : Reason),
          Emit.reconnectScheduled a d r ∉ evs := by
        intro a d r
        have := no_reconnectScheduled_in_reject s a d r
        rw [hre] at this
        exact this
      split_ifs with h1 h2 h3
      · exact ⟨ht1, ha1, hat, hnr⟩
      · exact ⟨ht1, ha1, hat, hnr⟩
      · exact ⟨ht1, ha1, hat, hnr⟩
      · rw [ht1] at h3
        simp at h3

/-- C5 witness: the invariant at the initial state, and the no-op at a
concrete state with an armed timer. -/
theorem single_reconnect_timer_witness :
    initialState.armedTimers.length ≤ 1 ∧
    (scheduleReconnect cfg0 0 .socket_close sTimerArmed).1.reconnectTimer = some 0 ∧
    (scheduleReconnect cfg0 0 .socket_close sTimerArmed).1.reconnectAttempt
      = sTimerArmed.reconnectAttempt := by
  have h := single_reconnect_timer cfg0
  have h2 := h.2 sTimerArmed 0 .socket_close 0 rfl
  exact ⟨h.1 initialState Reachable.init, h2.1, h2.2.2.1⟩

theorem finishPendingAction_mc (id : String) (s : ClientState) :
    (finishPendingAction id s).manualClose = s.manualClose := by
  unfold finishPendingAction
  repeat' split
  all_goals rfl

theorem handleMessage_mc_noSched (s : ClientState) (m : Incoming) :
    (handleMessage s m).1.manualClose = s.manualClose ∧
    (∀ (a : Nat) (d : ℚ) (r : Reason),
      Emit.reconnectScheduled a d r ∉ (handleMessage s m).2) := by
  cases m <;> unfold handleMessage <;> (try dsimp only) <;> repeat' split
  all_goals
    refine ⟨?_, ?_⟩ <;>
      first
        | rfl
        | exact finishPendingAction_mc _ _
        | (intro a d r hmem; simp at hmem)

theorem subscribeStep_mc_noSched (topic typ : String) (cb : Nat)
    (compression : Option String) (sendErr : Option String) (s : ClientState) :
    (subscribeStep topic typ cb compression sendErr s).1.manualClose = s.manualClose ∧
    (∀ (a : Nat) (d : ℚ) (r : Reason),
      Emit.reconnectScheduled a d r ∉ (subscribeStep topic typ cb compression sendErr s).2) := by
  unfold subscribeStep
  (try dsimp only)
  repeat' split
  all_goals
    refine ⟨rfl, ?_⟩
    intro a d r hmem
    simp at hmem

theorem unsubscribeStep_mc_noSched (topic : String) (sendErr : Option String)
    (s : ClientState) :
    (unsubscribeStep topic sendErr s).1.manualClose = s.manualClose ∧
    (∀ (a : Nat) (d : ℚ) (r : Reason),
      Emit.reconnectScheduled a d r ∉ (unsubscribeStep topic sendErr s).2) := by
  unfold unsubscribeStep
  (try dsimp only)
  repeat' split
  all_goals
    refine ⟨rfl, ?_⟩
    intro a d r hmem
    simp at hmem

theorem advertiseStep_mc_noSched (topic typ : String) (sendErr : Option String)
    (s : ClientState) :
    (advertiseStep topic typ sendErr s).1.manualClose = s.manualClose ∧
    (∀ (a : Nat) (d : ℚ) (r : Reason),
      Emit.reconnectScheduled a d r ∉ (advertiseStep topic typ sendErr s).2) := by
  unfold advertiseStep
  (try dsimp only)
  repeat' split
  all_goals
    refine ⟨rfl, ?_⟩
    intro a d r hmem
    simp at hmem

theorem publishStep_mc_noSched (topic : String) (sendErr : Option String) (s : ClientState) :
    (publishStep topic sendErr s).1.manualClose = s.manualClose ∧
    (∀ (a : Nat) (d : ℚ) (r : Reason),
      Emit.reconnectScheduled a d r ∉ (publishStep topic sendErr s).2) := by
  unfold publishStep
  (try dsimp only)
  repeat' split
  all_goals
    refine ⟨rfl, ?_⟩
    intro a d r hmem
    simp at hmem

theorem callServiceStep_mc_noSched (cfg : ClientConfig) (id service typ : String)
    (timeoutMs : Option ℚ) (sendErr : Option String) (s : ClientState) :
    (callServiceStep cfg id service typ timeoutMs sendErr s).1.manualClose = s.manualClose ∧
    (∀ (a : Nat) (d : ℚ) (r : Reason),
      Emit.reconnectScheduled a d r
        ∉ (callServiceStep cfg id service typ timeoutMs sendErr s).2) := by
  unfold callServiceStep
  (try dsimp only)
  repeat' split
  all_goals
    refine ⟨rfl, ?_⟩
    intro a d r hmem
    simp at hmem

theorem sendActionGoalStep_mc_noSched (cfg : ClientConfig) (o : SendGoalOpts)
    (sendErr : Option String) (s : ClientState) :
    (sendActionGoalStep cfg o sendErr s).1.manualClose = s.manualClose ∧
    (∀ (a : Nat) (d : ℚ) (r : Reason),
      Emit.reconnectScheduled a d r ∉ (sendActionGoalStep cfg o sendErr s).2.1) := by
  unfold sendActionGoalStep
  (try dsimp only)
  repeat' split
  all_goals
    refine ⟨rfl, ?_⟩
    intro a d r hmem
    simp at hmem

theorem cancelActionGoalStep_mc_noSched (cfg : ClientConfig) (action actionType : String)
    (sessionId : Option String) (timeoutMs : Option ℚ) (sendErr : Option String)
    (s : ClientState) :
    (cancelActionGoalStep cfg action actionType sessionId timeoutMs sendErr s).1.manualClose
      = s.manualClose ∧
    (∀ (a : Nat) (d : ℚ) (r : Reason),
      Emit.reconnectScheduled a d r
        ∉ (cancelActionGoalStep cfg action actionType sessionId timeoutMs sendErr s).2) := by
  unfold cancelActionGoalStep
  (try dsimp only)
  repeat' split
  all_goals
    refine ⟨rfl, ?_⟩
    intro a d r hmem
    simp at hmem

theorem serviceTimeoutFire_mc_noSched (id : String) (s : ClientState) :
    (serviceTimeoutFire id s).1.manualClose = s.manualClose ∧
    (∀ (a : Nat) (d : ℚ) (r : Reason),
      Emit.reconnectScheduled a d r ∉ (serviceTimeoutFire id s).2) := by
  unfold serviceTimeoutFire
  (try dsimp only)
  repeat' split
  all_goals
    refine ⟨rfl, ?_⟩
    intro a d r hmem
    simp at hmem

theorem actionTimeoutFire_mc_noSched (id : String) (s : ClientState) :
    (actionTimeoutFire id s).1.manualClose = s.manualClose ∧
    (∀ (a : Nat) (d : ℚ) (r : Reason),
      Emit.reconnectScheduled a d r ∉ (actionTimeoutFire id s).2) := by
  unfold actionTimeoutFire
  (try dsimp only)
  repeat' split
  all_goals
    refine ⟨rfl, ?_⟩
    intro a d r hmem
    simp at hmem

theorem cancelTimeoutFire_mc_noSched (key : String) (s : ClientState) :
    (cancelTimeoutFire key s).1.manualClose = s.manualClose ∧
    (∀ (a : Nat) (d : ℚ) (r : Reason),
      Emit.reconnectScheduled a d r ∉ (cancelTimeoutFire key s).2) := by
  unfold cancelTimeoutFire
  (try dsimp only)
  repeat' split
  all_goals
    refine ⟨rfl, ?_⟩
    intro a d r hmem
    simp at hmem

theorem scheduleReconnect_of_manualClose (cfg : ClientConfig) (rand : ℚ) (reason : Reason)
    (s : ClientState) (h : s.manualClose = true) :
    (scheduleReconnect cfg rand reason s).1 = (rejectPendingActionsOnDisconnect s).1 ∧
    (scheduleReconnect cfg rand reason s).2 = (rejectPendingActionsOnDisconnect s).2 := by
  have hm := rejectPA_manualClose s
  unfold scheduleReconnect
  cases hre : rejectPendingActionsOnDisconnect s with
  | mk s1 evs =>
    rw [hre] at hm
    dsimp only at hm ⊢
    have h1 : s1.manualClose = true := by rw [hm, h]
    rw [if_pos]
    · exact ⟨rfl, rfl⟩
    · rw [h1]
      simp

theorem scheduleReconnect_mc (cfg : ClientConfig) (rand : ℚ) (reason : Reason)
    (s : ClientState) :
    (scheduleReconnect cfg rand reason s).1.manualClose = s.manualClose := by
  have hm := rejectPA_manualClose s
  unfold scheduleReconnect
  cases hre : rejectPendingActionsOnDisconnect s with
  | mk s1 evs =>
    rw [hre] at hm
    dsimp only at hm ⊢
    split_ifs <;> exact hm

theorem scheduleReconnect_noSched_of_manualClose (cfg : ClientConfig) (rand : ℚ)
    (reason : Reason) (s : ClientState) (h : s.manualClose = true)
    (a : Nat) (d : ℚ) (r : Reason) :
    Emit.reconnectScheduled a d r ∉ (scheduleReconnect cfg rand reason s).2 := by
  rw [(scheduleReconnect_of_manualClose cfg rand reason s h).2]
  exact no_reconnectScheduled_in_reject s a d r

/-- Each non-`connect` entry point keeps manual-close set and, while it is
set, emits no `reconnectScheduled` notification. -/
theorem step_preserves_close (cfg : ClientConfig) (e : Ev) (s : ClientState)
    (hm : s.manualClose = true) (hnc : isConnectEv e = false) :
    (applyEv cfg e s).1.manualClose = true ∧
    (∀ (a : Nat) (d : ℚ) (r : Reason),
      Emit.reconnectScheduled a d r ∉ (applyEv cfg e s).2) := by
  cases e with
  | connect url ft rand => exact absurd hnc (by simp [isConnectEv])
  | socketOpened url outcome rand =>
    unfold applyEv socketOpenedStep
    dsimp only
    have hm1 : (resetReconnectState { s with wsOpenState := true }).manualClose = true := by
      unfold resetReconnectState clearReconnectTimer
      repeat' split
      all_goals exact hm
    cases hrb : rebindState outcome (resetReconnectState { s with wsOpenState := true }) with
    | mk sent err =>
      cases err with
      | none =>
        refine ⟨hm1, ?_⟩
        intro a d r hmem
        rcases List.mem_append.mp hmem with hx | hx
        · rcases List.mem_map.mp hx with ⟨x, -, hx2⟩
          exact Emit.noConfusion hx2
        · rcases List.mem_singleton.mp hx with h2
          exact Emit.noConfusion h2
      | some err2 =>
        have hsch := scheduleReconnect_of_manualClose cfg rand .connect_error _ hm1
        cases hsa : scheduleReconnect cfg rand Reason.connect_error
            (resetReconnectState { s with wsOpenState := true }) with
        | mk s2 evs2 =>
          rw [hsa] at hsch
          dsimp only at hsch
          constructor
          · rw [hsch.1, rejectPA_manualClose]
            exact hm1
          · intro a d r hmem
            rcases List.mem_append.mp hmem with hx | hx
            · rcases List.mem_append.mp hx with hy | hy
              · rcases List.mem_map.mp hy with ⟨x, -, hx2⟩
                exact Emit.noConfusion hx2
              · rcases List.mem_singleton.mp hy with h2
                exact Emit.noConfusion h2
            · rw [hsch.2] at hx
              exact no_reconnectScheduled_in_reject _ a d r hx
  | socketErrored rand =>
    unfold applyEv socketErroredStep
    dsimp only
    have hsch := scheduleReconnect_of_manualClose cfg rand .socket_error s hm
    cases hsa : scheduleReconnect cfg rand Reason.socket_error s with
    | mk s1 evs1 =>
      rw [hsa] at hsch
      dsimp only at hsch
      constructor
      · rw [hsch.1, rejectPA_manualClose]
        exact hm
      · intro a d r hmem
        rcases List.mem_cons.mp hmem with hx | hx
        · exact Emit.noConfusion hx
        · rw [hsch.2] at hx
          exact no_reconnectScheduled_in_reject _ a d r hx
  | socketClosed rand =>
    unfold applyEv socketClosedStep
    dsimp only
    have hm' : ({ s with wsOpenState := false } : ClientState).manualClose = true := hm
    have hsch := scheduleReconnect_of_manualClose cfg rand .socket_close
      { s with wsOpenState := false } hm'
    cases hsa : scheduleReconnect cfg rand Reason.socket_close
        { s with wsOpenState := false } with
    | mk s1 evs1 =>
      rw [hsa] at hsch
      dsimp only at hsch
      constructor
      · rw [hsch.1, rejectPA_manualClose]
        exact hm'
      · intro a d r hmem
        rcases List.mem_cons.mp hmem with hx | hx
        · exact Emit.noConfusion hx
        · rw [hsch.2] at hx
          exact no_reconnectScheduled_in_reject _ a d r hx
  | closeCall =>
    unfold applyEv closeStep resetReconnectState clearReconnectTimer
    dsimp only
    repeat' split
    all_goals exact ⟨rfl, by intro a d r hmem; simp at hmem⟩
  | timerFired ot rand =>
    unfold applyEv timerFiredStep
    cases htm : s.reconnectTimer with
    | none => exact ⟨hm, by intro a d r hmem; simp at hmem⟩
    | some t =>
      dsimp only
      cases ot with
      | false => exact ⟨hm, by intro a d r hmem; simp at hmem⟩
      | true =>
        have hm1 : ({ s with
            reconnectTimer := none,
            armedTimers := s.armedTimers.filter (fun x => x != t) } : ClientState).manualClose
            = true := hm
        have hs1 := scheduleReconnect_of_manualClose cfg rand .open_socket_throw _ hm1
        cases ha1 : scheduleReconnect cfg rand Reason.open_socket_throw
            { s with
              reconnectTimer := none,
              armedTimers := s.armedTimers.filter (fun x => x != t) } with
        | mk s2 evs2 =>
          rw [ha1] at hs1
          dsimp only at hs1
          have hm2 : s2.manualClose = true := by
            rw [hs1.1, rejectPA_manualClose]
            exact hm1
          have hs2 := scheduleReconnect_of_manualClose cfg rand .connect_error s2 hm2
          cases ha2 : scheduleReconnect cfg rand Reason.connect_error s2 with
          | mk s3 evs3 =>
            rw [ha2] at hs2
            dsimp only at hs2
            have hm3 : s3.manualClose = true := by
              rw [hs2.1, rejectPA_manualClose]
              exact hm2
            constructor
            · exact hm3
            · intro a d r hmem
              have hmem2 : Emit.reconnectScheduled a d r ∈
                  Emit.socketErrorEv "factory threw" :: (evs2 ++ evs3) := hmem
              rcases List.mem_cons.mp hmem2 with hx | hx
              · exact Emit.noConfusion hx
              · rcases List.mem_append.mp hx with hy | hy
                · rw [hs1.2] at hy
                  exact no_reconnectScheduled_in_reject _ a d r hy
                · rw [hs2.2] at hy
                  exact no_reconnectScheduled_in_reject _ a d r hy
  | message m =>
    have h := handleMessage_mc_noSched s m
    exact ⟨h.1.trans hm, h.2⟩
  | subscribeOp topic typ cb compression sendErr =>
    have h := subscribeStep_mc_noSched topic typ cb compression sendErr s
    exact ⟨h.1.trans hm, h.2⟩
  | unsubscribeOp topic sendErr =>
    have h := unsubscribeStep_mc_noSched topic sendErr s
    exact ⟨h.1.trans hm, h.2⟩
  | advertiseOp topic typ sendErr =>
    have h := advertiseStep_mc_noSched topic typ sendErr s
    exact ⟨h.1.trans hm, h.2⟩
  | publishOp topic sendErr =>
    have h := publishStep_mc_noSched topic sendErr s
    exact ⟨h.1.trans hm, h.2⟩
  | callServiceOp id service typ timeoutMs sendErr =>
    have h := callServiceStep_mc_noSched cfg id service typ timeoutMs sendErr s
    exact ⟨h.1.trans hm, h.2⟩
  | sendActionGoalOp o sendErr =>
    have h := sendActionGoalStep_mc_noSched cfg o sendErr s
    unfold applyEv
    dsimp only
    cases hx : sendActionGoalStep cfg o sendErr s with
    | mk s1 rest =>
      cases rest with
      | mk evs r2 =>
        rw [hx] at h
        exact ⟨h.1.trans hm, h.2⟩
  | cancelActionGoalOp action actionType sessionId timeoutMs sendErr =>
    have h := cancelActionGoalStep_mc_noSched cfg action actionType sessionId timeoutMs sendErr s
    exact ⟨h.1.trans hm, h.2⟩
  | serviceTimeout id =>
    have h := serviceTimeoutFire_mc_noSched id s
    exact ⟨h.1.trans hm, h.2⟩
  | actionTimeout id =>
    have h := actionTimeoutFire_mc_noSched id s
    exact ⟨h.1.trans hm, h.2⟩
  | cancelTimeout key =>
    have h := cancelTimeoutFire_mc_noSched key s
    exact ⟨h.1.trans hm, h.2⟩

/-- C6: `close()` sets manual-close and cancels any armed reconnect timer,
and from any manually-closed state, any sequence of entry points that does
not include a `connect` call emits no `reconnectScheduled` notification —
whatever socket events, factory throws, timer firings or messages occur. -/
theorem no_reconnect_after_close (cfg : ClientConfig) :
    (∀ s, (closeStep s).1.manualClose = true ∧ (closeStep s).1.reconnectTimer = none ∧
      (TimerOK s → (closeStep s).1.armedTimers = [])) ∧
    (∀ s, s.manualClose = true →
      ∀ evs : List Ev, (∀ e ∈ evs, isConnectEv e = false) →
        (runEvs cfg evs s).1.manualClose = true ∧
        (∀ (a : Nat) (d : ℚ) (r : Reason),
          Emit.reconnectScheduled a d r ∉ (runEvs cfg evs s).2)) := by
  constructor
  · intro s
    have htn : (closeStep s).1.reconnectTimer = none := by
      unfold closeStep resetReconnectState clearReconnectTimer
      dsimp only
      repeat' split
      all_goals first | rfl | simp_all
    refine ⟨?_, htn, ?_⟩
    · unfold closeStep resetReconnectState clearReconnectTimer
      dsimp only
      repeat' split
      all_goals first | rfl | simp_all
    · intro h
      have h2 := timerOK_close s h
      unfold TimerOK at h2
      rw [h2, htn]
      rfl
  · intro s hm evs
    induction evs generalizing s with
    | nil =>
      intro _
      exact ⟨hm, by intro a d r hmem; simp [runEvs] at hmem⟩
    | cons e rest ih =>
      intro hnc
      have hstep := step_preserves_close cfg e s hm (hnc e (List.mem_cons_self e rest))
      have hrest := ih (applyEv cfg e s).1 hstep.1
        (fun x hx => hnc x (List.mem_cons_of_mem e hx))
      constructor
      · show (runEvs cfg (e :: rest) s).1.manualClose = true
        unfold runEvs
        dsimp only
        cases hx : applyEv cfg e s with
        | mk s1 evs1 =>
          rw [hx] at hrest
          cases hy : runEvs cfg rest s1 with
          | mk s2 evs2 =>
            rw [hy] at hrest
            exact hrest.1
      · intro a d r hmem
        unfold runEvs at hmem
        dsimp only at hmem
        cases hx : applyEv cfg e s with
        | mk s1 evs1 =>
          rw [hx] at hmem hrest hstep
          cases hy : runEvs cfg rest s1 with
          | mk s2 evs2 =>
            rw [hy] at hmem hrest
            dsimp only at hmem
            rcases List.mem_append.mp hmem with hz | hz
            · exact hstep.2 a d r hz
            · exact hrest.2 a d r hz

/-- C6 witness: close a state with an armed timer, then hit it with a close
event, a socket error and a timer firing — manual-close survives and no
`reconnectScheduled` is emitted. -/
theorem no_reconnect_after_close_witness :
    (closeStep sTimerArmed).1.manualClose = true ∧
    (closeStep sTimerArmed).1.reconnectTimer = none ∧
    (closeStep sTimerArmed).1.armedTimers = [] ∧
    (runEvs cfg0 [Ev.socketClosed 0, Ev.socketErrored 0, Ev.timerFired true 0]
        (closeStep sTimerArmed).1).1.manualClose = true := by
  have h := no_reconnect_after_close cfg0
  have h1 := h.1 sTimerArmed
  have h2 := h.2 (closeStep sTimerArmed).1 h1.1
    [Ev.socketClosed 0, Ev.socketErrored 0, Ev.timerFired true 0]
    (by intro e he; fin_cases he <;> rfl)
  exact ⟨h1.1, h1.2.1, h1.2.2 rfl, h2.1⟩

theorem sendSeq_all_ok (outcome : Nat → Option String) (l : List Env) (i : Nat)
    (h : ∀ j, outcome j = none) : sendSeq outcome l i = (l, none) := by
  induction l generalizing i with
  | nil => rfl
  | cons e rest ih => simp [sendSeq, h i, ih (i + 1)]

theorem resetReconnectState_fields (s : ClientState) :
    (resetReconnectState s).reconnectTimer = none ∧
    (resetReconnectState s).reconnectAttempt = 0 ∧
    (resetReconnectState s).manualClose = s.manualClose ∧
    (resetReconnectState s).wsUrl = s.wsUrl ∧
    (resetReconnectState s).nextTimerId = s.nextTimerId := by
  unfold resetReconnectState clearReconnectTimer
  repeat' split
  all_goals refine ⟨?_, rfl, rfl, rfl, rfl⟩
  all_goals first | rfl | simp_all

theorem scheduleReconnect_arms (cfg : ClientConfig) (rand : ℚ) (reason : Reason)
    (s : ClientState) (hmc : s.manualClose = false) (hen : cfg.reconnect.enabled = true)
    (hurl : s.wsUrl.isNone = false) (hsr : cfg.shouldRetry = none)
    (htm : s.reconnectTimer = none) :
    (scheduleReconnect cfg rand reason s).2 =
      (rejectPendingActionsOnDisconnect s).2 ++
        [Emit.reconnectScheduled (s.reconnectAttempt + 1)
          (computeReconnectDelayMs cfg.reconnect rand (s.reconnectAttempt + 1)) reason] ∧
    (scheduleReconnect cfg rand reason s).1.reconnectTimer = some s.nextTimerId ∧
    (scheduleReconnect cfg rand reason s).1.reconnectAttempt = s.reconnectAttempt + 1 := by
  have hm := rejectPA_manualClose s
  have ht := rejectPA_timer s
  have hat := rejectPA_attempt s
  have hu : (rejectPendingActionsOnDisconnect s).1.wsUrl = s.wsUrl := rfl
  have hn : (rejectPendingActionsOnDisconnect s).1.nextTimerId = s.nextTimerId := rfl
  unfold scheduleReconnect
  cases hre : rejectPendingActionsOnDisconnect s with
  | mk s1 evs =>
    rw [hre] at hm ht hat hu hn
    dsimp only at hm ht hat hu hn ⊢
    rw [if_neg]
    · rw [if_neg]
      · rw [if_neg]
        · exact ⟨by rw [hat], by rw [hn], by rw [hat]⟩
        · rw [ht, htm]
          simp
      · rw [hsr]
        simp
    · rw [hm, hmc, hen, hu, hurl]
      simp

/-- C8: on socket open, before the connect completion resolves, the core
sends one subscribe envelope per subscription-table entry in insertion
order, carrying that entry's currently recorded type and compression,
followed by one advertise envelope per advertised topic; and if any replay
send fails, the connect promise rejects with that error and (with reconnect
enabled, no manual close, a stored URL and no shouldRetry veto) a reconnect
is scheduled with reason `connect_error`. -/
theorem socketOpen_replay (cfg : ClientConfig) (url : String)
    (outcome : Nat → Option String) (rand : ℚ) (s : ClientState) :
    ((∀ j, outcome j = none) →
      (socketOpenedStep cfg url outcome rand s).2.1 =
        (s.subscriptions.map
            (fun e => Emit.sendEv (Env.subscribe e.1 e.2.type e.2.compression)) ++
          s.advertisedTopics.map (fun e => Emit.sendEv (Env.advertise e.1 e.2))) ++
          [Emit.socketOpenEv url] ∧
      (socketOpenedStep cfg url outcome rand s).2.2 = .ok ()) ∧
    (∀ e, (rebindState outcome (resetReconnectState { s with wsOpenState := true })).2 = some e →
      s.manualClose = false → cfg.reconnect.enabled = true → s.wsUrl.isNone = false →
      cfg.shouldRetry = none →
      (socketOpenedStep cfg url outcome rand s).2.2 = .error e ∧
      Emit.reconnectScheduled 1 (computeReconnectDelayMs cfg.reconnect rand 1) .connect_error
        ∈ (socketOpenedStep cfg url outcome rand s).2.1) := by
  constructor
  · intro hok
    have hsend := sendSeq_all_ok outcome
      (rebindEnvelopes (resetReconnectState { s with wsOpenState := true })) 0 hok
    unfold socketOpenedStep rebindState
    dsimp only
    rw [hsend]
    constructor
    · show (rebindEnvelopes (resetReconnectState { s with wsOpenState := true })).map
          Emit.sendEv ++ [Emit.socketOpenEv url] = _
      have hsub : (resetReconnectState { s with wsOpenState := true }).subscriptions
          = s.subscriptions := by
        unfold resetReconnectState clearReconnectTimer
        repeat' split
        all_goals rfl
      have hadv : (resetReconnectState { s with wsOpenState := true }).advertisedTopics
          = s.advertisedTopics := by
        unfold resetReconnectState clearReconnectTimer
        repeat' split
        all_goals rfl
      unfold rebindEnvelopes
      rw [hsub, hadv]
      simp only [List.map_append, List.map_map]
      rfl
    · rfl
  · intro e hfail hmc hen hurl hsr
    have hfields := resetReconnectState_fields { s with wsOpenState := true }
    have harm := scheduleReconnect_arms cfg rand .connect_error
      (resetReconnectState { s with wsOpenState := true })
      (by rw [hfields.2.2.1]; exact hmc) hen
      (by rw [hfields.2.2.2.1]; exact hurl) hsr hfields.1
    unfold socketOpenedStep
    dsimp only
    cases hrb : rebindState outcome (resetReconnectState { s with wsOpenState := true }) with
    | mk sent err =>
      rw [hrb] at hfail
      dsimp only at hfail
      subst hfail
      cases hsc : scheduleReconnect cfg rand Reason.connect_error
          (resetReconnectState { s with wsOpenState := true }) with
      | mk s2 evs2 =>
        rw [hsc] at harm
        dsimp only at harm
        constructor
        · rfl
        · show Emit.reconnectScheduled 1 (computeReconnectDelayMs cfg.reconnect rand 1)
              Reason.connect_error ∈ sent.map Emit.sendEv ++ [Emit.socketErrorEv e] ++ evs2
          refine List.mem_append_right _ ?_
          rw [harm.1, hfields.2.1]
          exact List.mem_append_right _ (List.mem_singleton.mpr rfl)

/-- C8 witness: replay at a state with one subscription and one advertised
topic — all sends delivered, and a failing replay. -/
theorem socketOpen_replay_witness :
    (socketOpenedStep cfg0 "ws://x" (fun _ => none) 0 sReplay).2.1 =
      [Emit.sendEv (Env.subscribe "/mock/status" "std_msgs/String" (some "cbor-raw")),
       Emit.sendEv (Env.advertise "/chatter" "std_msgs/String"),
       Emit.socketOpenEv "ws://x"] ∧
    (socketOpenedStep cfg0 "ws://x" (fun _ => some "boom") 0 sReplay).2.2 = .error "boom" ∧
    Emit.reconnectScheduled 1 (computeReconnectDelayMs cfg0.reconnect 0 1) .connect_error
      ∈ (socketOpenedStep cfg0 "ws://x" (fun _ => some "boom") 0 sReplay).2.1 := by
  have h1 := (socketOpen_replay cfg0 "ws://x" (fun _ => none) 0 sReplay).1 (fun _ => rfl)
  have h2 := (socketOpen_replay cfg0 "ws://x" (fun _ => some "boom") 0 sReplay).2 "boom"
    rfl rfl rfl rfl rfl
  refine ⟨?_, h2.1, h2.2⟩
  rw [h1.1]
  rfl

/-- C4 counterexample: with `multiplier = 1/2` the code keeps the
multiplier (only non-positive values are replaced by 1), so at attempt 2 it
computes `floor(100 × (1/2)) = 50`, while the claim's "multiplier floored
at 1" formula gives 100. -/
theorem reconnectDelay_multiplier_counterexample :
    computeReconnectDelayMs optsHalf 0 2 ≠ claimedDelaySpec optsHalf 2 ∧
    computeReconnectDelayMs optsHalf 0 2 = 50 ∧
    claimedDelaySpec optsHalf 2 = 100 := by
  have h1 : computeReconnectDelayMs optsHalf 0 2 = 50 := by
    unfold computeReconnectDelayMs optsHalf
    norm_num
  have h2 : claimedDelaySpec optsHalf 2 = 100 := by
    unfold claimedDelaySpec optsHalf
    norm_num
  refine ⟨?_, h1, h2⟩
  rw [h1, h2]
  norm_num

/-- C4 (amended): for every attempt `n ≥ 1`, when `jitterRatio = 0` the
computed delay equals `floor(min(initialDelayMs × m^(n-1), maxDelayMs))`,
where `initialDelayMs` is first floored at 0, `maxDelayMs` is floored at the
(floored) initial delay, and `m` is the configured multiplier when it is
positive and 1 otherwise — a multiplier strictly between 0 and 1 is used
as-is, not floored at 1. -/
theorem reconnectDelay_formula (o : ReconnectOptions) (rand : ℚ) (n : Nat) (hn : 1 ≤ n)
    (hj : o.jitterRatio = 0) :
    computeReconnectDelayMs o rand n = codeDelaySpec o n := by
  unfold computeReconnectDelayMs codeDelaySpec
  dsimp only
  rw [hj]
  have hjr : min (max (0 : ℚ) 0) 1 = 0 := by norm_num
  rw [hjr, if_pos rfl]
  have hbi : (0 : ℚ) ≤ max 0 o.initialDelayMs := le_max_left 0 _
  have hm : (0 : ℚ) < (if 0 < o.multiplier then o.multiplier else 1) := by
    split_ifs with h
    · exact h
    · norm_num
  have hbase : (0 : ℚ) ≤ min ((max 0 o.initialDelayMs) *
      (if 0 < o.multiplier then o.multiplier else 1) ^ (n - 1))
      (max (max 0 o.initialDelayMs) o.maxDelayMs) := by
    apply le_min
    · exact mul_nonneg hbi (pow_nonneg (le_of_lt hm) _)
    · exact le_trans hbi (le_max_left _ _)
  have hfloor : (0 : ℤ) ≤ Int.floor (min ((max 0 o.initialDelayMs) *
      (if 0 < o.multiplier then o.multiplier else 1) ^ (n - 1))
      (max (max 0 o.initialDelayMs) o.maxDelayMs)) := Int.floor_nonneg.mpr hbase
  rw [max_eq_right]
  exact_mod_cast hfloor

/-- C4 witness: the amended formula at the default options, attempt 3. -/
theorem reconnectDelay_formula_witness :
    computeReconnectDelayMs cfg0.reconnect 0 3 = codeDelaySpec cfg0.reconnect 3 :=
  reconnectDelay_formula cfg0.reconnect 0 3 (by decide) rfl

theorem csize_pos (x : CborValue) : 1 ≤ csize x := by
  cases x <;> simp [csize]

theorem readBE_beBytes (w : Nat) : ∀ (n : Nat), n < 256 ^ w → ∀ (rest : List Nat),
    readBE w (beBytes w n ++ rest) = .ok (n, rest) := by
  induction w with
  | zero =>
    intro n hn rest
    have : n = 0 := by simpa using hn
    subst this
    rfl
  | succ w ih =>
    intro n hn rest
    have hpos : 0 < 256 ^ w := pow_pos (by norm_num) w
    have hlt : n % 256 ^ w < 256 ^ w := Nat.mod_lt _ hpos
    show readBE (w + 1) ((n / 256 ^ w :: beBytes w (n % 256 ^ w)) ++ rest) = _
    rw [List.cons_append]
    show (match readBE w (beBytes w (n % 256 ^ w) ++ rest) with
      | Except.error e => Except.error e
      | Except.ok (v, tail) => Except.ok (n / 256 ^ w * 256 ^ w + v, tail)) = _
    rw [ih (n % 256 ^ w) hlt rest]
    dsimp only
    have hd : n / 256 ^ w * 256 ^ w + n % 256 ^ w = n := by
      rw [Nat.mul_comm]
      exact Nat.div_add_mod n (256 ^ w)
    rw [hd]

theorem readLength_encodeTL (major len : Nat) (h : len ≤ 2 ^ 53 - 1) :
    ∃ ai tl, encodeTypeAndLength major len = (major * 32 + ai) :: tl ∧ ai < 28 ∧
      ∀ rest : List Nat, readLength ai (tl ++ rest) = .ok (len, rest) := by
  unfold encodeTypeAndLength
  dsimp only
  split_ifs with h1 h2 h3 h4 h5
  · refine ⟨len, [], rfl, by omega, ?_⟩
    intro rest
    unfold readLength
    rw [if_pos (by omega)]
    simp
  · refine ⟨24, beBytes 1 len, rfl, by omega, ?_⟩
    intro rest
    unfold readLength
    rw [if_neg (by omega), if_pos rfl]
    simp [beBytes]
  · refine ⟨25, beBytes 2 len, rfl, by omega, ?_⟩
    intro rest
    unfold readLength
    rw [if_neg (by omega), if_neg (by omega), if_pos rfl]
    have hb : (256 : Nat) ^ 2 = 65536 := by norm_num
    exact readBE_beBytes 2 len (by rw [hb]; omega) rest
  · refine ⟨26, beBytes 4 len, rfl, by omega, ?_⟩
    intro rest
    unfold readLength
    rw [if_neg (by omega), if_neg (by omega), if_neg (by omega), if_pos rfl]
    have hb : (256 : Nat) ^ 4 = 4294967296 := by norm_num
    exact readBE_beBytes 4 len (by rw [hb]; omega) rest
  · refine ⟨27, beBytes 8 len, rfl, by omega, ?_⟩
    intro rest
    unfold readLength
    rw [if_neg (by omega), if_neg (by omega), if_neg (by omega), if_neg (by omega),
        if_pos rfl]
    have hb : (256 : Nat) ^ 8 = 18446744073709551616 := by norm_num
    rw [readBE_beBytes 8 len (by rw [hb]; omega) rest]
    have hsafe : (2 : Nat) ^ 53 - 1 = 9007199254740991 := by norm_num
    dsimp only
    rw [hsafe] at h ⊢
    rw [if_neg (by omega)]
  · exfalso
    have hsafe : (2 : Nat) ^ 53 - 1 = 9007199254740991 := by norm_num
    rw [hsafe] at h
    omega

theorem readChunk_append (bs rest : List Nat) :
    readChunk bs.length (bs ++ rest) = .ok (bs, rest) := by
  unfold readChunk
  rw [if_pos (by simp)]
  rw [List.take_left, List.drop_left]

theorem objInsert_append (acc : List (List Nat × CborValue)) (k : List Nat) (v : CborValue)
    (h : ∀ e ∈ acc, e.1 ≠ k) : objInsert acc k v = acc ++ [(k, v)] := by
  induction acc with
  | nil => rfl
  | cons e rest ih =>
    obtain ⟨k0, v0⟩ := e
    have hk0 : k0 ≠ k := h (k0, v0) (List.mem_cons_self _ _)
    simp only [objInsert, if_neg hk0, List.cons_append]
    rw [ih (fun e he => h e (List.mem_cons_of_mem _ he))]

theorem decodeArr_enc (fuel : Nat)
    (hP : ∀ x, wfb x = true → csize x ≤ fuel → ∀ rest,
      decodeV fuel (encodeValue x ++ rest) = .ok (x, rest)) :
    ∀ (xs : List CborValue) (rest : List Nat), wfbList xs = true → csizeList xs ≤ fuel →
      decodeArr fuel xs.length (encodeList xs ++ rest) = .ok (xs, rest) := by
  intro xs
  induction xs with
  | nil =>
    intro rest _ _
    simp [decodeArr, encodeList]
  | cons x tail ih =>
    intro rest hwf hsz
    have hwb : wfb x = true ∧ wfbList tail = true := by
      simpa [wfbList, Bool.and_eq_true] using hwf
    have hpos := csize_pos x
    simp only [csizeList] at hsz
    have hszx : csize x ≤ fuel := by omega
    have hsztail : csizeList tail ≤ fuel := by omega
    simp only [encodeList, List.length_cons, List.append_assoc]
    simp only [decodeArr]
    rw [hP x hwb.1 hszx (encodeList tail ++ rest)]
    dsimp only
    rw [ih rest hwb.2 hsztail]

theorem keysDistinct_tail (k : List Nat) (ks : List (List Nat))
    (h : keysDistinct (k :: ks) = true) :
    keysDistinct ks = true ∧ ∀ k2 ∈ ks, k ≠ k2 := by
  have h2 : (!ks.contains k) = true ∧ keysDistinct ks = true := by
    simpa [keysDistinct, Bool.and_eq_true] using h
  refine ⟨h2.2, ?_⟩
  intro k2 hk2 heq
  subst heq
  have := h2.1
  simp [List.contains, List.elem_eq_mem] at this
  exact this hk2

theorem decodeMap_enc (fuel : Nat)
    (hP : ∀ x, wfb x = true → csize x ≤ fuel → ∀ rest,
      decodeV fuel (encodeValue x ++ rest) = .ok (x, rest)) :
    ∀ (es acc : List (List Nat × CborValue)) (rest : List Nat),
      wfbObj es = true → csizeObj es ≤ fuel →
      keysDistinct (es.map Prod.fst) = true →
      (∀ e ∈ acc, ∀ k2 ∈ es.map Prod.fst, e.1 ≠ k2) →
      decodeMap fuel es.length acc (encodeObj es ++ rest) = .ok (acc ++ es, rest) := by
  intro es
  induction es with
  | nil =>
    intro acc rest _ _ _ _
    simp [decodeMap, encodeObj]
  | cons e tail ih =>
    obtain ⟨k, v⟩ := e
    intro acc rest hwf hsz hdist hdisj
    have hw : ((decide (k.length ≤ 2 ^ 53 - 1) && k.all (fun b => b < 256)) = true ∧
        wfb v = true) ∧ wfbObj tail = true := by
      simpa [wfbObj, Bool.and_eq_true, and_assoc] using hwf
    have hwfk : wfb (.str k) = true := by
      simp only [wfb]
      exact hw.1.1
    have hposv := csize_pos v
    simp only [csizeObj] at hsz
    have hszk : csize (.str k) ≤ fuel := by
      simp only [csize]
      omega
    have hszv : csize v ≤ fuel := by omega
    have hsztail : csizeObj tail ≤ fuel := by omega
    have hdt := keysDistinct_tail k (tail.map Prod.fst) (by simpa using hdist)
    have hknotacc : ∀ e2 ∈ acc, e2.1 ≠ k := by
      intro e2 he2
      exact hdisj e2 he2 k (by simp)
    simp only [encodeObj, List.length_cons, List.append_assoc]
    simp only [decodeMap]
    rw [hP (.str k) hwfk hszk (encodeValue v ++ (encodeObj tail ++ rest))]
    dsimp only
    rw [hP v hw.1.2 hszv (encodeObj tail ++ rest)]
    dsimp only [keyBytes]
    rw [objInsert_append acc k v hknotacc]
    rw [ih (acc ++ [(k, v)]) rest hw.2 hsztail hdt.1 ?_]
    · simp
    · intro e2 he2 k2 hk2
      rcases List.mem_append.mp he2 with h2 | h2
      · exact hdisj e2 h2 k2 (by simp [hk2])
      · rcases List.mem_singleton.mp h2 with rfl
        exact hdt.2 k2 hk2

theorem decodeV_enc : ∀ (fuel : Nat) (x : CborValue), wfb x = true → csize x ≤ fuel →
    ∀ rest : List Nat, decodeV fuel (encodeValue x ++ rest) = .ok (x, rest) := by
  intro fuel
  induction fuel with
  | zero =>
    intro x _ hsz rest
    have := csize_pos x
    omega
  | succ fuel ih =>
    intro x hwf hsz rest
    cases x with
    | nul =>
      simp only [encodeValue]
      simp [decodeV]
    | bool b =>
      cases b with
      | false =>
        simp only [encodeValue]
        simp [decodeV]
      | true =>
        simp only [encodeValue]
        simp [decodeV]
    | float bits =>
      have hw : (f64ToSafeInt bits).isNone = true ∧ bits < 2 ^ 64 := by
        simpa [wfb, Bool.and_eq_true, decide_eq_true_eq] using hwf
      have hb : (256 : Nat) ^ 8 = 2 ^ 64 := by norm_num
      simp only [encodeValue]
      rw [List.cons_append]
      simp only [decodeV]
      (try dsimp only)
      norm_num
      rw [readBE_beBytes 8 bits (by rw [hb]; exact hw.2) rest]
      dsimp only
      unfold numFromBits
      rw [Option.isNone_iff_eq_none.mp hw.1]
    | int n =>
      have hb : -(2 ^ 53 - 1) ≤ n ∧ n ≤ 2 ^ 53 - 1 := by
        simpa [wfb, Bool.and_eq_true, decide_eq_true_eq] using hwf
      have hpi : ((2 : Int) ^ 53 - 1) = 9007199254740991 := by norm_num
      have hpn : ((2 : Nat) ^ 53 - 1) = 9007199254740991 := by norm_num
      by_cases hpos : 0 ≤ n
      · obtain ⟨ai, tl, henc, hai, hrl⟩ := readLength_encodeTL 0 n.toNat
          (by rw [hpn]; rw [hpi] at hb; omega)
        simp only [encodeValue, if_pos hpos]
        rw [henc, List.cons_append]
        simp only [decodeV]
        (try dsimp only)
        have h32 : (0 * 32 + ai) / 32 = 0 := by omega
        have hm32 : (0 * 32 + ai) % 32 = ai := by omega
        rw [h32, hm32]
        simp [hrl]
        exact hpos
      · obtain ⟨ai, tl, henc, hai, hrl⟩ := readLength_encodeTL 1 (-1 - n).toNat
          (by rw [hpn]; rw [hpi] at hb; omega)
        simp only [encodeValue, if_neg hpos]
        rw [henc, List.cons_append]
        simp only [decodeV]
        (try dsimp only)
        have h32 : (1 * 32 + ai) / 32 = 1 := by omega
        have hm32 : (1 * 32 + ai) % 32 = ai := by omega
        rw [h32, hm32]
        simp [hrl]
        omega
    | str s2 =>
      have hw : s2.length ≤ 2 ^ 53 - 1 := by
        have := by simpa [wfb, Bool.and_eq_true, decide_eq_true_eq] using hwf
        exact this.1
      obtain ⟨ai, tl, henc, hai, hrl⟩ := readLength_encodeTL 3 s2.length hw
      simp only [encodeValue]
      rw [henc, List.append_assoc, List.cons_append]
      simp only [decodeV]
      (try dsimp only)
      have h32 : (3 * 32 + ai) / 32 = 3 := by omega
      have hm32 : (3 * 32 + ai) % 32 = ai := by omega
      rw [h32, hm32]
      simp [hrl, readChunk_append]
    | bytes bs =>
      have hw : bs.length ≤ 2 ^ 53 - 1 := by
        have := by simpa [wfb, Bool.and_eq_true, decide_eq_true_eq] using hwf
        exact this.1
      obtain ⟨ai, tl, henc, hai, hrl⟩ := readLength_encodeTL 2 bs.length hw
      simp only [encodeValue]
      rw [henc, List.append_assoc, List.cons_append]
      simp only [decodeV]
      (try dsimp only)
      have h32 : (2 * 32 + ai) / 32 = 2 := by omega
      have hm32 : (2 * 32 + ai) % 32 = ai := by omega
      rw [h32, hm32]
      simp [hrl, readChunk_append]
    | arr items =>
      have hw : items.length ≤ 2 ^ 53 - 1 ∧ wfbList items = true := by
        simpa [wfb, Bool.and_eq_true, decide_eq_true_eq] using hwf
      have hszl : csizeList items ≤ fuel := by
        simp only [csize] at hsz
        omega
      obtain ⟨ai, tl, henc, hai, hrl⟩ := readLength_encodeTL 4 items.length hw.1
      simp only [encodeValue]
      rw [henc, List.append_assoc, List.cons_append]
      simp only [decodeV]
      (try dsimp only)
      have h32 : (4 * 32 + ai) / 32 = 4 := by omega
      have hm32 : (4 * 32 + ai) % 32 = ai := by omega
      rw [h32, hm32]
      simp only [hrl]
      norm_num
      rw [decodeArr_enc fuel ih items rest hw.2 hszl]
    | obj entries =>
      have hw : (entries.length ≤ 2 ^ 53 - 1 ∧
          keysDistinct (entries.map Prod.fst) = true) ∧ wfbObj entries = true := by
        simpa [wfb, Bool.and_eq_true, decide_eq_true_eq, and_assoc] using hwf
      have hszl : csizeObj entries ≤ fuel := by
        simp only [csize] at hsz
        omega
      obtain ⟨ai, tl, henc, hai, hrl⟩ := readLength_encodeTL 5 entries.length hw.1.1
      simp only [encodeValue]
      rw [henc, List.append_assoc, List.cons_append]
      simp only [decodeV]
      (try dsimp only)
      have h32 : (5 * 32 + ai) / 32 = 5 := by omega
      have hm32 : (5 * 32 + ai) % 32 = ai := by omega
      rw [h32, hm32]
      simp only [hrl]
      norm_num
      rw [decodeMap_enc fuel ih entries [] rest hw.2 hszl hw.1.2 (by simp)]
      simp

theorem encodeTL_len_pos (major len : Nat) (h : len ≤ 2 ^ 53 - 1) :
    1 ≤ (encodeTypeAndLength major len).length := by
  obtain ⟨ai, tl, henc, -, -⟩ := readLength_encodeTL major len h
  rw [henc]
  simp

theorem csize_le_len : ∀ (N : Nat) (x : CborValue), csize x ≤ N → wfb x = true →
    csize x ≤ (encodeValue x).length := by
  intro N
  induction N with
  | zero =>
    intro x h _
    have := csize_pos x
    omega
  | succ N ih =>
    have hlist : ∀ xs, wfbList xs = true → csizeList xs ≤ N →
        csizeList xs ≤ (encodeList xs).length := by
      intro xs
      induction xs with
      | nil => simp [csizeList, encodeList]
      | cons y ys ihy =>
        intro hw hs
        have hyc := csize_pos y
        obtain ⟨h1, h2⟩ : wfb y = true ∧ wfbList ys = true := by
          simpa [wfbList, Bool.and_eq_true] using hw
        simp only [csizeList] at hs ⊢
        simp only [encodeList, List.length_append]
        have h3 := ih y (by omega) h1
        have h4 := ihy h2 (by omega)
        omega
    have hobj : ∀ es, wfbObj es = true → csizeObj es ≤ N →
        csizeObj es ≤ (encodeObj es).length := by
      intro es
      induction es with
      | nil => simp [csizeObj, encodeObj]
      | cons e tail ihe =>
        obtain ⟨k, v⟩ := e
        intro hw hs
        have hvc := csize_pos v
        have hw2 : ((decide (k.length ≤ 2 ^ 53 - 1) && k.all (fun b => b < 256)) = true ∧
            wfb v = true) ∧ wfbObj tail = true := by
          simpa [wfbObj, Bool.and_eq_true, and_assoc] using hw
        have hklen : k.length ≤ 2 ^ 53 - 1 := by
          have := hw2.1.1
          simp [Bool.and_eq_true, decide_eq_true_eq] at this
          exact this.1
        have hkenc : 1 ≤ (encodeValue (.str k)).length := by
          simp only [encodeValue, List.length_append]
          have := encodeTL_len_pos 3 k.length hklen
          omega
        simp only [csizeObj] at hs ⊢
        simp only [encodeObj, List.length_append]
        have h3 := ih v (by omega) hw2.1.2
        have h4 := ihe hw2.2 (by omega)
        omega
    intro x hN hwf
    cases x with
    | nul => simp [encodeValue, csize]
    | bool b => simp [encodeValue, csize]
    | float bits => simp [encodeValue, csize]
    | int n =>
      have hb : -(2 ^ 53 - 1) ≤ n ∧ n ≤ 2 ^ 53 - 1 := by
        simpa [wfb, Bool.and_eq_true, decide_eq_true_eq] using hwf
      have hpi : ((2 : Int) ^ 53 - 1) = 9007199254740991 := by norm_num
      have hpn : ((2 : Nat) ^ 53 - 1) = 9007199254740991 := by norm_num
      simp only [csize, encodeValue]
      split_ifs with hpos
      · have := encodeTL_len_pos 0 n.toNat (by rw [hpn]; rw [hpi] at hb; omega)
        omega
      · have := encodeTL_len_pos 1 (-1 - n).toNat (by rw [hpn]; rw [hpi] at hb; omega)
        omega
    | str s2 =>
      have hw : s2.length ≤ 2 ^ 53 - 1 := by
        have := by simpa [wfb, Bool.and_eq_true, decide_eq_true_eq] using hwf
        exact this.1
      simp only [csize, encodeValue, List.length_append]
      have := encodeTL_len_pos 3 s2.length hw
      omega
    | bytes bs =>
      have hw : bs.length ≤ 2 ^ 53 - 1 := by
        have := by simpa [wfb, Bool.and_eq_true, decide_eq_true_eq] using hwf
        exact this.1
      simp only [csize, encodeValue, List.length_append]
      have := encodeTL_len_pos 2 bs.length hw
      omega
    | arr items =>
      have hw : items.length ≤ 2 ^ 53 - 1 ∧ wfbList items = true := by
        simpa [wfb, Bool.and_eq_true, decide_eq_true_eq] using hwf
      simp only [csize] at hN ⊢
      simp only [encodeValue, List.length_append]
      have h1 := encodeTL_len_pos 4 items.length hw.1
      have h2 := hlist items hw.2 (by omega)
      omega
    | obj entries =>
      have hw : (entries.length ≤ 2 ^ 53 - 1 ∧
          keysDistinct (entries.map Prod.fst) = true) ∧ wfbObj entries = true := by
        simpa [wfb, Bool.and_eq_true, decide_eq_true_eq, and_assoc] using hwf
      simp only [csize] at hN ⊢
      simp only [encodeValue, List.length_append]
      have h1 := encodeTL_len_pos 5 entries.length hw.1.1
      have h2 := hobj entries hw.2 (by omega)
      omega

/-- C9: for every value in the codec's domain — booleans, null, safe
integers, non-integer float64 numbers (as binary64 patterns), strings (as
UTF-8 bytes), byte buffers, arrays, and plain objects with distinct string
keys in insertion order — decoding the encoding returns the value exactly:
`decodeCbor (encodeCbor x) = .ok x`. -/
theorem cbor_roundtrip (x : CborValue) (h : wfb x = true) :
    decodeCbor (encodeCbor x) = .ok x := by
  unfold decodeCbor encodeCbor
  have hlen := csize_le_len (csize x) x le_rfl h
  have hdec := decodeV_enc ((encodeValue x).length + 1) x h (by omega) []
  rw [List.append_nil] at hdec
  rw [hdec]
  rfl

/-- C9 witness: the round trip at a concrete value exercising every
constructor of the domain. -/
theorem cbor_roundtrip_witness :
    wfb sampleCbor = true ∧ decodeCbor (encodeCbor sampleCbor) = .ok sampleCbor :=
  ⟨by decide, cbor_roundtrip sampleCbor (by decide)⟩

end Tachybridge
